import Mathlib

/-!
Verification development for the EDINET XBRL collector/extractor/server
program (main.go, latest revision).  The extraction layer is embedded
shallowly: an XBRL document is modelled as the list of its tagged values
(tag name, contextRef attribute, element content), because every regular
expression in the pattern table has the shape
  <NAME-LITERAL [^>]* (contextRef="CTX" | contextRef="CTX[^"]*")? [^>]* >(\d+)</
which, on a serialized tag, is equivalent to: the tag name extends the
name literal, the contextRef attribute is exactly CTX (closing quote in
the literal) or starts with CTX (the [^"]* variant), and the element
content is a nonempty digit string, which is the capture.  The character
class [^>]* cannot cross a closing angle bracket, so a match never spans
two tags.  FindStringSubmatch returns the leftmost match, i.e. the first
matching tag of the document.

Go map iteration order is unspecified and randomized, so every run of the
pattern loop is parametrized here by an explicit visitation order, a
permutation of the map keys.
-/

set_option maxHeartbeats 1000000

namespace MyAnalysis

/-- Go strings.TrimSuffix: drop the suffix when present, else return the
string unchanged. -/
def goTrimSuffix (s suffix : String) : String :=
  if suffix.data.isSuffixOf s.data then
    String.mk (s.data.take (s.data.length - suffix.data.length))
  else s

/-- Go strings.HasSuffix. -/
def goHasSuffix (s suffix : String) : Bool :=
  suffix.data.isSuffixOf s.data

/-- Whether the first list occurs as a contiguous sublist of the second. -/
def listContainsSub (sub : List Char) : List Char → Bool
  | [] => sub.isEmpty
  | c :: rest => sub.isPrefixOf (c :: rest) || listContainsSub sub rest

/-- Go strings.Contains. -/
def goContains (s sub : String) : Bool :=
  listContainsSub sub.data s.data

/-- Value of a digit string (the regex capture group is always \d+). -/
def digitsToNat (cs : List Char) : Nat :=
  cs.foldl (fun a c => 10 * a + (c.toNat - 48)) 0

/-- Largest value of a signed 64-bit integer. -/
def int64Max : Int := 9223372036854775807

/-- Go strconv.ParseInt(s, 10, 64) with the error discarded, as the source
does (value, _ := strconv.ParseInt(...)).  On a digit string that exceeds
the 64-bit range ParseInt reports ErrRange and returns the saturation
value MaxInt64; the source ignores the error and uses the value.  On a
syntax error ParseInt returns 0. -/
def goParseInt64 (s : String) : Int :=
  if !s.data.isEmpty && s.data.all Char.isDigit then
    let n : Int := (digitsToNat s.data : Nat)
    if n ≤ int64Max then n else int64Max
  else 0

/-- One XBRL tagged value: element name, contextRef attribute, content. -/
structure XTag where
  name : String
  ctx : String
  content : String
deriving DecidableEq, Repr

/-- Context-reference constraint of a pattern, read off its regex: either
the attribute equals the literal (closing quote inside the regex literal),
or it merely starts with it (the CTX[^"]* form), or it is unconstrained
(no contextRef in the regex). -/
inductive CtxCond where
  | exact (c : String)
  | starts (c : String)
  | free
deriving DecidableEq, Repr

/-- One entry of the pattern table: the admissible beginnings of the tag
name (two for the OperatingRevenue[12] character class, one otherwise) and
the context constraint. -/
structure TagPattern where
  nameLits : List String
  ctx : CtxCond
deriving DecidableEq, Repr

/-- Whether a context value satisfies the constraint. -/
def ctxMatches : CtxCond → String → Bool
  | CtxCond.exact c, v => v == c
  | CtxCond.starts c, v => c.data.isPrefixOf v.data
  | CtxCond.free, _ => true

/-- Whether a pattern matches a tag: the name extends one of the literals,
the context matches, and the content is a nonempty digit string (the
capture (\d+) followed by the mandatory closing angle). -/
def matchesTag (p : TagPattern) (t : XTag) : Bool :=
  p.nameLits.any (fun l => l.data.isPrefixOf t.name.data)
    && ctxMatches p.ctx t.ctx
    && (!t.content.data.isEmpty && t.content.data.all Char.isDigit)

/-- FindStringSubmatch: the capture of the leftmost matching tag. -/
def findMatch (p : TagPattern) (doc : List XTag) : Option String :=
  (doc.find? (matchesTag p)).map XTag.content

/-! The pattern table xbrlTagPatterns of main.go, one constant per map
entry, each annotated with its source regex. -/

/-- Regex: <jpcrp_cor:NetSalesSummaryOfBusinessResults[^>]*contextRef="CurrentYearDuration"[^>]*>(\d+)</ -/
def patNetSales : TagPattern :=
  ⟨["jpcrp_cor:NetSalesSummaryOfBusinessResults"], CtxCond.exact "CurrentYearDuration"⟩

/-- Regex: <jpcrp_cor:NetSalesSummaryOfBusinessResults[^>]*contextRef="CurrentYearDuration[^"]*"[^>]*>(\d+)</ -/
def patNetSalesFallback : TagPattern :=
  ⟨["jpcrp_cor:NetSalesSummaryOfBusinessResults"], CtxCond.starts "CurrentYearDuration"⟩

/-- Regex: <jppfs_cor:NetSales[^>]*contextRef="CurrentYearDuration"[^>]*>(\d+)</ -/
def patNetSalesFallback2 : TagPattern :=
  ⟨["jppfs_cor:NetSales"], CtxCond.exact "CurrentYearDuration"⟩

/-- Regex: <jpcrp_cor:OperatingRevenue[12]SummaryOfBusinessResults[^>]*contextRef="CurrentYearDuration[^"]*"[^>]*>(\d+)</ -/
def patOperatingRevenues : TagPattern :=
  ⟨["jpcrp_cor:OperatingRevenue1SummaryOfBusinessResults",
    "jpcrp_cor:OperatingRevenue2SummaryOfBusinessResults"], CtxCond.starts "CurrentYearDuration"⟩

/-- Regex: <jpcrp_cor:OperatingIncomeLossSummaryOfBusinessResults[^>]*contextRef="CurrentYearDuration"[^>]*>(\d+)</ -/
def patOperatingIncome : TagPattern :=
  ⟨["jpcrp_cor:OperatingIncomeLossSummaryOfBusinessResults"], CtxCond.exact "CurrentYearDuration"⟩

/-- Regex: <jpcrp_cor:OperatingIncomeLossSummaryOfBusinessResults[^>]*contextRef="CurrentYearDuration[^"]*"[^>]*>(\d+)</ -/
def patOperatingIncomeFallback : TagPattern :=
  ⟨["jpcrp_cor:OperatingIncomeLossSummaryOfBusinessResults"], CtxCond.starts "CurrentYearDuration"⟩

/-- Regex: <jppfs_cor:OperatingIncome[^>]*contextRef="CurrentYearDuration"[^>]*>(\d+)</ -/
def patOperatingIncomeFallback2 : TagPattern :=
  ⟨["jppfs_cor:OperatingIncome"], CtxCond.exact "CurrentYearDuration"⟩

/-- Regex: <jpcrp_cor:OrdinaryIncomeLossSummaryOfBusinessResults[^>]*contextRef="CurrentYearDuration[^"]*"[^>]*>(\d+)</ -/
def patOrdinaryIncome : TagPattern :=
  ⟨["jpcrp_cor:OrdinaryIncomeLossSummaryOfBusinessResults"], CtxCond.starts "CurrentYearDuration"⟩

/-- Regex: <jpcrp_cor:ProfitLossAttributableToOwnersOfParentSummaryOfBusinessResults[^>]*contextRef="CurrentYearDuration"[^>]*>(\d+)</ -/
def patNetIncome : TagPattern :=
  ⟨["jpcrp_cor:ProfitLossAttributableToOwnersOfParentSummaryOfBusinessResults"], CtxCond.exact "CurrentYearDuration"⟩

/-- Regex: <jpcrp_cor:ProfitLossAttributableToOwnersOfParentSummaryOfBusinessResults[^>]*contextRef="CurrentYearDuration[^"]*"[^>]*>(\d+)</ -/
def patNetIncomeFallback : TagPattern :=
  ⟨["jpcrp_cor:ProfitLossAttributableToOwnersOfParentSummaryOfBusinessResults"], CtxCond.starts "CurrentYearDuration"⟩

/-- Regex: <jppfs_cor:ProfitLoss[^>]*contextRef="CurrentYearDuration"[^>]*>(\d+)</ -/
def patNetIncomeFallback2 : TagPattern :=
  ⟨["jppfs_cor:ProfitLoss"], CtxCond.exact "CurrentYearDuration"⟩

/-- Regex: <jpcrp_cor:NetIncomeLossSummaryOfBusinessResults[^>]*contextRef="CurrentYearDuration[^"]*"[^>]*>(\d+)</ -/
def patNetIncomeFallback3 : TagPattern :=
  ⟨["jpcrp_cor:NetIncomeLossSummaryOfBusinessResults"], CtxCond.starts "CurrentYearDuration"⟩

/-- Regex: <jpcrp_cor:TotalAssetsSummaryOfBusinessResults[^>]*contextRef="CurrentYearInstant"[^>]*>(\d+)</ -/
def patTotalAssets : TagPattern :=
  ⟨["jpcrp_cor:TotalAssetsSummaryOfBusinessResults"], CtxCond.exact "CurrentYearInstant"⟩

/-- Regex: <jpcrp_cor:TotalAssetsSummaryOfBusinessResults[^>]*contextRef="CurrentYearInstant[^"]*"[^>]*>(\d+)</ -/
def patTotalAssetsFallback : TagPattern :=
  ⟨["jpcrp_cor:TotalAssetsSummaryOfBusinessResults"], CtxCond.starts "CurrentYearInstant"⟩

/-- Regex: <jppfs_cor:Assets[^>]*contextRef="CurrentYearInstant"[^>]*>(\d+)</ -/
def patTotalAssetsFallback2 : TagPattern :=
  ⟨["jppfs_cor:Assets"], CtxCond.exact "CurrentYearInstant"⟩

/-- Regex: <jpcrp_cor:NetAssetsSummaryOfBusinessResults[^>]*contextRef="CurrentYearInstant"[^>]*>(\d+)</ -/
def patNetAssets : TagPattern :=
  ⟨["jpcrp_cor:NetAssetsSummaryOfBusinessResults"], CtxCond.exact "CurrentYearInstant"⟩

/-- Regex: <jpcrp_cor:NetAssetsSummaryOfBusinessResults[^>]*contextRef="CurrentYearInstant[^"]*"[^>]*>(\d+)</ -/
def patNetAssetsFallback : TagPattern :=
  ⟨["jpcrp_cor:NetAssetsSummaryOfBusinessResults"], CtxCond.starts "CurrentYearInstant"⟩

/-- Regex: <jppfs_cor:NetAssets[^>]*contextRef="CurrentYearInstant"[^>]*>(\d+)</ -/
def patNetAssetsFallback2 : TagPattern :=
  ⟨["jppfs_cor:NetAssets"], CtxCond.exact "CurrentYearInstant"⟩

/-- Regex: <jppfs_cor:CurrentAssets[^>]*contextRef="CurrentYearInstant"[^>]*>(\d+)</ -/
def patCurrentAssets : TagPattern :=
  ⟨["jppfs_cor:CurrentAssets"], CtxCond.exact "CurrentYearInstant"⟩

/-- Regex: <jppfs_cor:Liabilities[^>]*contextRef="CurrentYearInstant"[^>]*>(\d+)</ -/
def patLiabilities : TagPattern :=
  ⟨["jppfs_cor:Liabilities"], CtxCond.exact "CurrentYearInstant"⟩

/-- Regex: <jppfs_cor:CurrentLiabilities[^>]*contextRef="CurrentYearInstant"[^>]*>(\d+)</ -/
def patCurrentLiabilities : TagPattern :=
  ⟨["jppfs_cor:CurrentLiabilities"], CtxCond.exact "CurrentYearInstant"⟩

/-- Regex: <jppfs_cor:CashAndDeposits[^>]*contextRef="CurrentYearInstant"[^>]*>(\d+)</ -/
def patCashAndDeposits : TagPattern :=
  ⟨["jppfs_cor:CashAndDeposits"], CtxCond.exact "CurrentYearInstant"⟩

/-- Regex: <jpcrp_cor:TotalNumberOfIssuedSharesSummaryOfBusinessResults[^>]*contextRef="CurrentYearInstant[^"]*"[^>]*>(\d+)</ -/
def patSharesIssued : TagPattern :=
  ⟨["jpcrp_cor:TotalNumberOfIssuedSharesSummaryOfBusinessResults"], CtxCond.starts "CurrentYearInstant"⟩

/-- Regex: <jpcrp_cor:NumberOfIssuedSharesAsOfFilingDateEtcTotalNumberOfSharesEtc[^>]*>(\d+)</ -/
def patSharesIssuedFallback : TagPattern :=
  ⟨["jpcrp_cor:NumberOfIssuedSharesAsOfFilingDateEtcTotalNumberOfSharesEtc"], CtxCond.free⟩

/-- The map xbrlTagPatterns of main.go as an association list, in source
order of the map literal. -/
def xbrlTagPatterns : List (String × TagPattern) :=
  [("NetSales", patNetSales),
   ("NetSalesFallback", patNetSalesFallback),
   ("NetSalesFallback2", patNetSalesFallback2),
   ("OperatingRevenues", patOperatingRevenues),
   ("OperatingIncome", patOperatingIncome),
   ("OperatingIncomeFallback", patOperatingIncomeFallback),
   ("OperatingIncomeFallback2", patOperatingIncomeFallback2),
   ("OrdinaryIncome", patOrdinaryIncome),
   ("NetIncome", patNetIncome),
   ("NetIncomeFallback", patNetIncomeFallback),
   ("NetIncomeFallback2", patNetIncomeFallback2),
   ("NetIncomeFallback3", patNetIncomeFallback3),
   ("TotalAssets", patTotalAssets),
   ("TotalAssetsFallback", patTotalAssetsFallback),
   ("TotalAssetsFallback2", patTotalAssetsFallback2),
   ("NetAssets", patNetAssets),
   ("NetAssetsFallback", patNetAssetsFallback),
   ("NetAssetsFallback2", patNetAssetsFallback2),
   ("CurrentAssets", patCurrentAssets),
   ("Liabilities", patLiabilities),
   ("CurrentLiabilities", patCurrentLiabilities),
   ("CashAndDeposits", patCashAndDeposits),
   ("SharesIssued", patSharesIssued),
   ("SharesIssuedFallback", patSharesIssuedFallback)]

/-- The key set of the pattern map; a run of the Go range loop visits a
permutation of this list. -/
def xbrlTagKeys : List String := xbrlTagPatterns.map Prod.fst

/-- The struct FinancialData of main.go (all fields int64, zero-valued
when not found). -/
structure FinancialData where
  netSales : Int := 0
  operatingIncome : Int := 0
  netIncome : Int := 0
  totalAssets : Int := 0
  netAssets : Int := 0
  currentAssets : Int := 0
  liabilities : Int := 0
  currentLiabilities : Int := 0
  cashAndDeposits : Int := 0
  sharesIssued : Int := 0
deriving DecidableEq, Repr

/-- State of one extraction pass: the accumulating record plus the
found map (Go map[string]bool, false by default). -/
structure PState where
  data : FinancialData
  found : String → Bool

/-- Initial extraction state: zero record, empty found map. -/
def initState : PState := ⟨{}, fun _ => false⟩

/-- Setting a key of the found map to true. -/
def markFound (f : String → Bool) (b : String) : String → Bool :=
  fun x => if x = b then true else f x

/-- The switch statement of parseXBRLFromZip over the base tag name,
executed for a positive parsed value that passed the found guard. -/
def applyBase (st : PState) (baseName : String) (value : Int) : PState :=
  if baseName = "NetSales" ∨ baseName = "OperatingRevenues" then
    if st.data.netSales = 0 then
      ⟨{ st.data with netSales := value }, markFound st.found "NetSales"⟩
    else st
  else if baseName = "OperatingIncome" then
    if st.data.operatingIncome = 0 then
      ⟨{ st.data with operatingIncome := value }, markFound st.found "OperatingIncome"⟩
    else st
  else if baseName = "OrdinaryIncome" then
    if st.data.operatingIncome = 0 then
      ⟨{ st.data with operatingIncome := value }, st.found⟩
    else st
  else if baseName = "NetIncome" then
    if st.data.netIncome = 0 then
      ⟨{ st.data with netIncome := value }, markFound st.found "NetIncome"⟩
    else st
  else if baseName = "TotalAssets" then
    if st.data.totalAssets = 0 then
      ⟨{ st.data with totalAssets := value }, markFound st.found "TotalAssets"⟩
    else st
  else if baseName = "NetAssets" then
    if st.data.netAssets = 0 then
      ⟨{ st.data with netAssets := value }, markFound st.found "NetAssets"⟩
    else st
  else if baseName = "CurrentAssets" then
    if st.data.currentAssets = 0 then
      ⟨{ st.data with currentAssets := value }, markFound st.found "CurrentAssets"⟩
    else st
  else if baseName = "Liabilities" then
    if st.data.liabilities = 0 then
      ⟨{ st.data with liabilities := value }, markFound st.found "Liabilities"⟩
    else st
  else if baseName = "CurrentLiabilities" then
    if st.data.currentLiabilities = 0 then
      ⟨{ st.data with currentLiabilities := value }, markFound st.found "CurrentLiabilities"⟩
    else st
  else if baseName = "CashAndDeposits" then
    if st.data.cashAndDeposits = 0 then
      ⟨{ st.data with cashAndDeposits := value }, markFound st.found "CashAndDeposits"⟩
    else st
  else if baseName = "SharesIssued" then
    if st.data.sharesIssued = 0 then
      ⟨{ st.data with sharesIssued := value }, markFound st.found "SharesIssued"⟩
    else st
  else st

/-- The base name computed by parseXBRLFromZip: TrimSuffix Fallback, then
Fallback3, then Fallback2, in that source order. -/
def zipBase (tagName : String) : String :=
  goTrimSuffix (goTrimSuffix (goTrimSuffix tagName "Fallback") "Fallback3") "Fallback2"

/-- One iteration of the pattern loop of parseXBRLFromZip for the visited
map key: look the pattern up, match it against the document, parse the
capture, and on a positive value run the found guard and the switch. -/
def visitZip (doc : List XTag) (st : PState) (tagName : String) : PState :=
  match xbrlTagPatterns.lookup tagName with
  | none => st
  | some pat =>
    match findMatch pat doc with
    | none => st
    | some cap =>
      let value := goParseInt64 cap
      if 0 < value then
        let baseName := zipBase tagName
        if st.found baseName then st else applyBase st baseName value
      else st

/-- One archive entry: file name and parsed tag list of its content. -/
structure ZipFile where
  name : String
  doc : List XTag

/-- The file loop of parseXBRLFromZip: skip entries whose name does not
end in .xbrl, run the pattern loop on every other entry, accumulating
the state across files. -/
def zipExtract (files : List ZipFile) (order : List String) : PState :=
  files.foldl
    (fun st f =>
      if goHasSuffix f.name ".xbrl" then order.foldl (visitZip f.doc) st else st)
    initState

/-- parseXBRLFromZip of main.go: fold the archive, then the insufficiency
gate: when net sales, total assets and net assets are all zero the pair
carries the error, faithfully to the Go return (data, err). -/
def parseXBRLFromZip (files : List ZipFile) (order : List String) :
    FinancialData × Option String :=
  let st := zipExtract files order
  if st.data.netSales = 0 ∧ st.data.totalAssets = 0 ∧ st.data.netAssets = 0 then
    (st.data, some "no financial data found in XBRL")
  else (st.data, none)

/-- The switch statement of parseLocalFile.  It differs from the zip
variant in the four balance-sheet detail fields: current assets,
liabilities, current liabilities and cash are assigned unconditionally and
are not recorded in the found map. -/
def applyLocal (st : PState) (baseName : String) (value : Int) : PState :=
  if baseName = "NetSales" ∨ baseName = "OperatingRevenues" then
    if st.data.netSales = 0 then
      ⟨{ st.data with netSales := value }, markFound st.found "NetSales"⟩
    else st
  else if baseName = "OperatingIncome" then
    if st.data.operatingIncome = 0 then
      ⟨{ st.data with operatingIncome := value }, markFound st.found "OperatingIncome"⟩
    else st
  else if baseName = "OrdinaryIncome" then
    if st.data.operatingIncome = 0 then
      ⟨{ st.data with operatingIncome := value }, st.found⟩
    else st
  else if baseName = "NetIncome" then
    if st.data.netIncome = 0 then
      ⟨{ st.data with netIncome := value }, markFound st.found "NetIncome"⟩
    else st
  else if baseName = "TotalAssets" then
    if st.data.totalAssets = 0 then
      ⟨{ st.data with totalAssets := value }, markFound st.found "TotalAssets"⟩
    else st
  else if baseName = "NetAssets" then
    if st.data.netAssets = 0 then
      ⟨{ st.data with netAssets := value }, markFound st.found "NetAssets"⟩
    else st
  else if baseName = "CurrentAssets" then
    ⟨{ st.data with currentAssets := value }, st.found⟩
  else if baseName = "Liabilities" then
    ⟨{ st.data with liabilities := value }, st.found⟩
  else if baseName = "CurrentLiabilities" then
    ⟨{ st.data with currentLiabilities := value }, st.found⟩
  else if baseName = "CashAndDeposits" then
    ⟨{ st.data with cashAndDeposits := value }, st.found⟩
  else if baseName = "SharesIssued" then
    if st.data.sharesIssued = 0 then
      ⟨{ st.data with sharesIssued := value }, markFound st.found "SharesIssued"⟩
    else st
  else st

/-- The base name computed by parseLocalFile: TrimSuffix Fallback then
Fallback2 only; the Fallback3 suffix is never stripped there. -/
def localBase (tagName : String) : String :=
  goTrimSuffix (goTrimSuffix tagName "Fallback") "Fallback2"

/-- One iteration of the pattern loop of parseLocalFile. -/
def visitLocal (doc : List XTag) (st : PState) (tagName : String) : PState :=
  match xbrlTagPatterns.lookup tagName with
  | none => st
  | some pat =>
    match findMatch pat doc with
    | none => st
    | some cap =>
      let value := goParseInt64 cap
      if 0 < value then
        let baseName := localBase tagName
        if st.found baseName then st else applyLocal st baseName value
      else st

/-- parseLocalFile of main.go on an already-read document; it has no
insufficiency gate and always returns the record. -/
def parseLocalFile (doc : List XTag) (order : List String) : FinancialData :=
  (order.foldl (visitLocal doc) initState).data

/-! Collector-side definitions. -/

/-- Go string slicing s[:n]; the none result models the runtime panic
(slice bounds out of range) raised when n exceeds the string length. -/
def goSliceTo (s : String) (n : Nat) : Option String :=
  if n ≤ s.data.length then some (String.mk (s.data.take n)) else none

/-- The per-document entity-code derivation of runCollector: a document
with an empty secCode is skipped before the slice (outer none = skipped);
otherwise shortCode := doc.SecCode[:4], whose inner none models the slice
panic on a code shorter than four characters. -/
def runCollectorShortCode (secCode : String) : Option (Option String) :=
  if secCode = "" then none else some (goSliceTo secCode 4)

/-- Where a fetching mode takes its data from: a mock file read from
disk, a fixed in-code record, or an actual HTTP request. -/
inductive FetchSource where
  | mockFile
  | mockData
  | network
deriving DecidableEq, Repr

/-- Document-list fetch of runCollector: when EDINET_API_KEY is empty it
reads test_data.json instead of calling the documents.json endpoint. -/
def runCollectorListSource (apiKey : String) : FetchSource :=
  if apiKey = "" then FetchSource.mockFile else FetchSource.network

/-- The fixed record downloadAndParseXBRL returns in mock mode. -/
def mockFinancialData : FinancialData :=
  { netSales := 5000000000, operatingIncome := 500000000, netIncome := 300000000,
    totalAssets := 10000000000, netAssets := 5000000000, currentAssets := 3000000000,
    liabilities := 5000000000 }

/-- Archive download of downloadAndParseXBRL: when EDINET_API_KEY is
empty it returns mockFinancialData without any request. -/
def downloadAndParseXBRLSource (apiKey : String) : FetchSource :=
  if apiKey = "" then FetchSource.mockData else FetchSource.network

/-- Price-history fetch: fetchPricesFromStooq performs http.Get on the
Stooq CSV endpoint unconditionally; the function never reads
EDINET_API_KEY and has no mock branch. -/
def fetchPricesFromStooqSource (_apiKey : String) : FetchSource :=
  FetchSource.network

/-! Serving-side definitions.  Rational numbers stand in for the float64
arithmetic of the handlers; the concrete inputs the claims are evaluated
at make every floating-point operation involved exact, and the guards
compare int64 fields, so the branch structure is unaffected. -/

/-- One row scanned by the stocks and ranking endpoints: the stored
figures of an entity joined with its latest close price (COALESCE 0 when
no price row exists).  The priceDate column is carried through unchanged
by the handler and is omitted here. -/
structure StockRow where
  code : String := ""
  name : String := ""
  updatedAt : String := ""
  netSales : Int := 0
  operatingIncome : Int := 0
  netIncome : Int := 0
  totalAssets : Int := 0
  netAssets : Int := 0
  currentAssets : Int := 0
  liabilities : Int := 0
  currentLiabilities : Int := 0
  cashAndDeposits : Int := 0
  sharesIssued : Int := 0
  lastPrice : ℚ := 0
deriving DecidableEq

/-- The computed part of the StockWithPrice record of the stocks
endpoint: market capitalization plus the six ratio fields, each a pointer
in the source whose nil (here none) renders as an absent JSON field. -/
structure StockWithPrice where
  marketCap : Int
  per : Option ℚ
  pbr : Option ℚ
  eps : Option ℚ
  roe : Option ℚ
  equityRatio : Option ℚ
  netNetRatio : Option ℚ
deriving DecidableEq

/-- Ratio computation of the stocks handler.  MarketCap is
int64(lastPrice * float64(sharesIssued)); in the guarded branch the
product is positive, where the Go toward-zero conversion equals the
floor. -/
def computeStockWithPrice (s : StockRow) : StockWithPrice :=
  let marketCap : Int :=
    if 0 < s.lastPrice ∧ 0 < s.sharesIssued then
      ⌊s.lastPrice * (s.sharesIssued : ℚ)⌋
    else 0
  { marketCap := marketCap
    per :=
      if 0 < marketCap ∧ 0 < s.netIncome then
        some ((marketCap : ℚ) / (s.netIncome : ℚ))
      else none
    pbr :=
      if 0 < marketCap ∧ 0 < s.netAssets then
        some ((marketCap : ℚ) / (s.netAssets : ℚ))
      else none
    eps :=
      if 0 < s.netIncome ∧ 0 < s.sharesIssued then
        some ((s.netIncome : ℚ) / (s.sharesIssued : ℚ))
      else none
    roe :=
      if 0 < s.netIncome ∧ 0 < s.netAssets then
        some ((s.netIncome : ℚ) / (s.netAssets : ℚ) * 100)
      else none
    equityRatio :=
      if 0 < s.totalAssets ∧ 0 < s.netAssets then
        some ((s.netAssets : ℚ) / (s.totalAssets : ℚ) * 100)
      else none
    netNetRatio :=
      if 0 < marketCap ∧ 0 < s.currentAssets then
        some (((s.currentAssets - s.liabilities : Int) : ℚ) / (marketCap : ℚ))
      else none }

/-- The OneilStock record built per row by the ranking endpoint. -/
structure OneilStock where
  code : String
  name : String
  score : ℚ
  lastPrice : ℚ
  marketCap : Int
  netSales : Int
  netIncome : Int
  eps : Option ℚ
  roe : Option ℚ
  per : Option ℚ
  pbr : Option ℚ
  equityRatio : Option ℚ
  rs : Option ℚ
  updatedAt : String
deriving DecidableEq

/-- Per-row computation of the ranking handler: ratios with the same
positivity guards as the stocks endpoint, then the additive score: base
50, plus fixed awards per ROE, PER, PBR and equity-ratio threshold band;
a nil ratio contributes nothing.  The RS field is never assigned. -/
def mkOneilStock (s : StockRow) : OneilStock :=
  let marketCap : Int :=
    if 0 < s.lastPrice ∧ 0 < s.sharesIssued then
      ⌊s.lastPrice * (s.sharesIssued : ℚ)⌋
    else 0
  let eps : Option ℚ :=
    if 0 < s.netIncome ∧ 0 < s.sharesIssued then
      some ((s.netIncome : ℚ) / (s.sharesIssued : ℚ))
    else none
  let roe : Option ℚ :=
    if 0 < s.netAssets ∧ 0 < s.netIncome then
      some ((s.netIncome : ℚ) / (s.netAssets : ℚ) * 100)
    else none
  let per : Option ℚ :=
    if 0 < marketCap ∧ 0 < s.netIncome then
      some ((marketCap : ℚ) / (s.netIncome : ℚ))
    else none
  let pbr : Option ℚ :=
    if 0 < marketCap ∧ 0 < s.netAssets then
      some ((marketCap : ℚ) / (s.netAssets : ℚ))
    else none
  let equityRatio : Option ℚ :=
    if 0 < s.totalAssets ∧ 0 < s.netAssets then
      some ((s.netAssets : ℚ) / (s.totalAssets : ℚ) * 100)
    else none
  let roePts : ℚ :=
    match roe with
    | some r => if 20 < r then 20 else if 15 < r then 15 else if 10 < r then 10 else 0
    | none => 0
  let perPts : ℚ :=
    match per with
    | some p => if p < 10 then 15 else if p < 15 then 10 else if p < 20 then 5 else 0
    | none => 0
  let pbrPts : ℚ :=
    match pbr with
    | some p => if p < 1 then 10 else if p < 3 / 2 then 5 else 0
    | none => 0
  let eqPts : ℚ :=
    match equityRatio with
    | some e => if 50 < e then 10 else if 30 < e then 5 else 0
    | none => 0
  { code := s.code, name := s.name,
    score := 50 + roePts + perPts + pbrPts + eqPts,
    lastPrice := s.lastPrice, marketCap := marketCap,
    netSales := s.netSales, netIncome := s.netIncome,
    eps := eps, roe := roe, per := per, pbr := pbr, equityRatio := equityRatio,
    rs := none, updatedAt := s.updatedAt }

/-- The inner j-loop of the ranking sort for one outer position: cur is
the element currently held at position i; every later element with
strictly greater score is swapped in, which drops the previously held
element at that later position. -/
def innerPass (cur : OneilStock) : List OneilStock → OneilStock × List OneilStock
  | [] => (cur, [])
  | x :: xs =>
    if cur.score < x.score then
      let p := innerPass x xs
      (p.1, cur :: p.2)
    else
      let p := innerPass cur xs
      (p.1, x :: p.2)

/-- The double loop that sorts the ranking output by descending score
(swap whenever a later element has a strictly greater score), rendered
functionally: each outer iteration extracts the maximum of the remaining
suffix into the next position. -/
def exchangeSort : List OneilStock → List OneilStock
  | [] => []
  | x :: xs =>
    let p := innerPass x xs
    p.1 :: exchangeSort p.2
termination_by l => l.length
decreasing_by
  have hlen : ∀ (cur : OneilStock) (l : List OneilStock),
      (innerPass cur l).2.length = l.length := by
    intro cur l
    induction l generalizing cur with
    | nil => rfl
    | cons y ys ih =>
      by_cases h : cur.score < y.score <;> simp [innerPass, h, ih]
  simp [hlen]

/-- The ranking endpoint pipeline on the scanned rows: build one
OneilStock per row in row order, then sort by descending score. -/
def oneilRanking (rows : List StockRow) : List OneilStock :=
  exchangeSort (rows.map mkOneilStock)

/-! Field-generic vocabulary about the extraction switch, used to state
the resolution-order properties. -/

/-- Enumeration of the ten record fields. -/
inductive XField where
  | netSales
  | operatingIncome
  | netIncome
  | totalAssets
  | netAssets
  | currentAssets
  | liabilities
  | currentLiabilities
  | cashAndDeposits
  | sharesIssued
deriving DecidableEq, Repr

/-- Projection of a record field. -/
def getF : XField → FinancialData → Int
  | XField.netSales, d => d.netSales
  | XField.operatingIncome, d => d.operatingIncome
  | XField.netIncome, d => d.netIncome
  | XField.totalAssets, d => d.totalAssets
  | XField.netAssets, d => d.netAssets
  | XField.currentAssets, d => d.currentAssets
  | XField.liabilities, d => d.liabilities
  | XField.currentLiabilities, d => d.currentLiabilities
  | XField.cashAndDeposits, d => d.cashAndDeposits
  | XField.sharesIssued, d => d.sharesIssued

/-- The map key of the primary pattern of a field, which is also the
label the switch records in the found map when the field is resolved. -/
def primaryKey : XField → String
  | XField.netSales => "NetSales"
  | XField.operatingIncome => "OperatingIncome"
  | XField.netIncome => "NetIncome"
  | XField.totalAssets => "TotalAssets"
  | XField.netAssets => "NetAssets"
  | XField.currentAssets => "CurrentAssets"
  | XField.liabilities => "Liabilities"
  | XField.currentLiabilities => "CurrentLiabilities"
  | XField.cashAndDeposits => "CashAndDeposits"
  | XField.sharesIssued => "SharesIssued"

/-- The pattern of the primary map key of a field. -/
def primaryPat : XField → TagPattern
  | XField.netSales => patNetSales
  | XField.operatingIncome => patOperatingIncome
  | XField.netIncome => patNetIncome
  | XField.totalAssets => patTotalAssets
  | XField.netAssets => patNetAssets
  | XField.currentAssets => patCurrentAssets
  | XField.liabilities => patLiabilities
  | XField.currentLiabilities => patCurrentLiabilities
  | XField.cashAndDeposits => patCashAndDeposits
  | XField.sharesIssued => patSharesIssued

/-- The switch case labels that can write a given field: net sales is
also written by the OperatingRevenues case, operating income also by the
OrdinaryIncome rescue case, every other field only by its own case. -/
def basesFor : XField → List String
  | XField.netSales => ["NetSales", "OperatingRevenues"]
  | XField.operatingIncome => ["OperatingIncome", "OrdinaryIncome"]
  | XField.netIncome => ["NetIncome"]
  | XField.totalAssets => ["TotalAssets"]
  | XField.netAssets => ["NetAssets"]
  | XField.currentAssets => ["CurrentAssets"]
  | XField.liabilities => ["Liabilities"]
  | XField.currentLiabilities => ["CurrentLiabilities"]
  | XField.cashAndDeposits => ["CashAndDeposits"]
  | XField.sharesIssued => ["SharesIssued"]

/-- The four balance-sheet detail fields whose switch cases differ
between parseXBRLFromZip and parseLocalFile. -/
def fourFields : List XField :=
  [XField.currentAssets, XField.liabilities, XField.currentLiabilities,
   XField.cashAndDeposits]

/-- The case labels of those four fields. -/
def fourStrings : List String :=
  ["CurrentAssets", "Liabilities", "CurrentLiabilities", "CashAndDeposits"]

/-- All twelve case labels of the switch. -/
def allBases : List String :=
  ["NetSales", "OperatingRevenues", "OperatingIncome", "OrdinaryIncome", "NetIncome",
   "TotalAssets", "NetAssets", "CurrentAssets", "Liabilities", "CurrentLiabilities",
   "CashAndDeposits", "SharesIssued"]

/-- Setter of a record field. -/
def setF : XField → Int → FinancialData → FinancialData
  | XField.netSales, v, d => { d with netSales := v }
  | XField.operatingIncome, v, d => { d with operatingIncome := v }
  | XField.netIncome, v, d => { d with netIncome := v }
  | XField.totalAssets, v, d => { d with totalAssets := v }
  | XField.netAssets, v, d => { d with netAssets := v }
  | XField.currentAssets, v, d => { d with currentAssets := v }
  | XField.liabilities, v, d => { d with liabilities := v }
  | XField.currentLiabilities, v, d => { d with currentLiabilities := v }
  | XField.cashAndDeposits, v, d => { d with cashAndDeposits := v }
  | XField.sharesIssued, v, d => { d with sharesIssued := v }

/-- The record field written by a switch case label. -/
def fieldOfBase : String → Option XField
  | "NetSales" => some XField.netSales
  | "OperatingRevenues" => some XField.netSales
  | "OperatingIncome" => some XField.operatingIncome
  | "OrdinaryIncome" => some XField.operatingIncome
  | "NetIncome" => some XField.netIncome
  | "TotalAssets" => some XField.totalAssets
  | "NetAssets" => some XField.netAssets
  | "CurrentAssets" => some XField.currentAssets
  | "Liabilities" => some XField.liabilities
  | "CurrentLiabilities" => some XField.currentLiabilities
  | "CashAndDeposits" => some XField.cashAndDeposits
  | "SharesIssued" => some XField.sharesIssued
  | _ => none

/-- The found-map key recorded by a switch case label of parseXBRLFromZip:
the OperatingRevenues case records NetSales, the OrdinaryIncome rescue
case records nothing, every other case records itself. -/
def markLabel : String → Option String
  | "OperatingRevenues" => some "NetSales"
  | "OrdinaryIncome" => none
  | b => some b

/-- Optionally mark a found-map key. -/
def markOpt (f : String → Bool) : Option String → (String → Bool)
  | none => f
  | some l => markFound f l

/-! Concrete inputs used by the witnesses and counterexamples below.
Each is a small document given as its tag list together with a concrete
visitation order that is a permutation of the map keys, i.e. a possible
run of the Go range loop. -/

/-- Document holding a positive net-sales summary tag, a positive
operating-income summary tag (value 111) and a positive ordinary-income
tag (value 222), all in the consolidated CurrentYearDuration context. -/
def c1doc : List XTag :=
  [⟨"jpcrp_cor:NetSalesSummaryOfBusinessResults", "CurrentYearDuration", "100"⟩,
   ⟨"jpcrp_cor:OperatingIncomeLossSummaryOfBusinessResults", "CurrentYearDuration", "111"⟩,
   ⟨"jpcrp_cor:OrdinaryIncomeLossSummaryOfBusinessResults", "CurrentYearDuration", "222"⟩]

/-- A run of the pattern map that happens to visit OrdinaryIncome first:
a permutation of the keys. -/
def c1order : List String :=
  "OrdinaryIncome" :: xbrlTagKeys.erase "OrdinaryIncome"

/-- State with operating income already resolved at 5, for the
never-override witness. -/
def c1state : PState := ⟨{ operatingIncome := 5 }, fun _ => false⟩

/-- Document whose net-sales primary pattern matches the summary tag with
capture 100 while the jppfs_cor:NetSales statement tag (matched by the
NetSalesFallback2 pattern) carries 200. -/
def c3doc : List XTag :=
  [⟨"jppfs_cor:NetSales", "CurrentYearDuration", "200"⟩,
   ⟨"jpcrp_cor:NetSalesSummaryOfBusinessResults", "CurrentYearDuration", "100"⟩]

/-- A run of the pattern map that visits the NetSalesFallback2 pattern
first: a permutation of the keys. -/
def c3order : List String :=
  "NetSalesFallback2" :: xbrlTagKeys.erase "NetSalesFallback2"

/-- An archive whose only entry is an audit-report file (EDINET audit
files carry the jpaud- prefix in their base name) that ends in .xbrl and
contains a positive net-sales summary tag. -/
def c4files : List ZipFile :=
  [⟨"XBRL/AuditDoc/jpaud-aar-cn-001_E00000-000_2025-03-31_01_2025-06-27.xbrl",
    [⟨"jpcrp_cor:NetSalesSummaryOfBusinessResults", "CurrentYearDuration", "100"⟩]⟩]

/-- Document whose net-sales summary tag carries 2 to the power 63, one
more than the largest signed 64-bit integer. -/
def c6doc : List XTag :=
  [⟨"jpcrp_cor:NetSalesSummaryOfBusinessResults", "CurrentYearDuration",
    "9223372036854775808"⟩]

/-- Row with shares issued 1000, last price 50, net income 10000 and net
assets 0, the inputs of the ratio-computation claim. -/
def c8row : StockRow :=
  { code := "7203", sharesIssued := 1000, lastPrice := 50, netIncome := 10000 }

/-- Row with figures but no price, so that market capitalization is 0. -/
def c8rowNoPrice : StockRow :=
  { code := "7204", netIncome := 10000, netAssets := 500 }

/-- First of two rows with identical score 50: positive net sales, no
other figure, no price, so every ratio is absent. -/
def c9rowA : StockRow := { code := "7001", netSales := 1 }

/-- Second row with score 50, listed after c9rowA in code order. -/
def c9rowB : StockRow := { code := "7002", netSales := 1 }

/-- Row with score 70: net income 250 over net assets 1000 gives an
exactly representable ROE of 25 percent, awarding 20 points. -/
def c9rowC : StockRow :=
  { code := "7003", netSales := 1, netIncome := 250, netAssets := 1000 }

/-- The ranking input in code-ascending order, as produced by the
ORDER BY s.code ASC query. -/
def c9rows : List StockRow := [c9rowA, c9rowB, c9rowC]

/-- Document for the C10 witness: only summary tags, no
jpcrp_cor:NetIncomeLoss tag, hence no NetIncomeFallback3 match. -/
def c10doc : List XTag :=
  [⟨"jpcrp_cor:NetSalesSummaryOfBusinessResults", "CurrentYearDuration", "300"⟩,
   ⟨"jppfs_cor:CurrentAssets", "CurrentYearInstant", "40"⟩,
   ⟨"jppfs_cor:Liabilities", "CurrentYearInstant", "30"⟩]

/-- Document matched only by the NetIncomeFallback3 pattern. -/
def c10docF3 : List XTag :=
  [⟨"jpcrp_cor:NetIncomeLossSummaryOfBusinessResults",
    "CurrentYearDuration_NonConsolidatedMember", "77"⟩]

/-- Document whose net-sales summary tag carries the placeholder value
zero. -/
def c6zeroDoc : List XTag :=
  [⟨"jpcrp_cor:NetSalesSummaryOfBusinessResults", "CurrentYearDuration", "0"⟩]

/-- State with net sales already resolved at 7, for the
first-resolution-wins witness. -/
def c3state : PState := ⟨{ netSales := 7 }, fun _ => false⟩

/-- State with net sales already resolved at 44, for the cross-file
preservation witness. -/
def c4state : PState := ⟨{ netSales := 44 }, fun _ => false⟩

/-- Coupling invariant between a parseLocalFile state and a
parseXBRLFromZip state that have processed the same visits, with rest the
keys still to visit: the records agree; the found maps agree outside the
four divergent labels; the local pass never marks those four; a four
label marked on the zip side is never revisited; and an unmarked four
label still has a zero field on the zip side. -/
def SyncInv (sl sz : PState) (rest : List String) : Prop :=
  sl.data = sz.data ∧
  (∀ b, b ∉ fourStrings → sl.found b = sz.found b) ∧
  (∀ b ∈ fourStrings, sl.found b = false) ∧
  (∀ b ∈ fourStrings, sz.found b = true → b ∉ rest) ∧
  (∀ f ∈ fourFields, sz.found (primaryKey f) = false → getF f sz.data = 0)

end MyAnalysis

namespace MyAnalysis

/-! Helper lemmas about the exchange sort of the ranking endpoint. -/

/-- The inner pass preserves the length of the remainder list. -/
theorem innerPass_length (cur : OneilStock) (l : List OneilStock) :
    (innerPass cur l).2.length = l.length := by
  induction l generalizing cur with
  | nil => rfl
  | cons x xs ih => by_cases h : cur.score < x.score <;> simp [innerPass, h, ih]

/-- The inner pass extracts a maximum: its first component dominates the
incoming element and every element of the remainder. -/
theorem innerPass_spec (l : List OneilStock) (cur : OneilStock) :
    cur.score ≤ (innerPass cur l).1.score ∧
    (∀ y ∈ (innerPass cur l).2, y.score ≤ (innerPass cur l).1.score) := by
  induction l generalizing cur with
  | nil => exact ⟨le_refl _, by simp [innerPass]⟩
  | cons x xs ih =>
    by_cases h : cur.score < x.score
    · have hx := ih x
      constructor
      · simp only [innerPass, if_pos h]
        exact le_trans (le_of_lt h) hx.1
      · intro y hy
        simp only [innerPass, if_pos h] at hy ⊢
        rcases List.mem_cons.mp hy with hEq | hy2
        · rw [hEq]
          exact le_trans (le_of_lt h) hx.1
        · exact hx.2 y hy2
    · have hc := ih cur
      constructor
      · simp only [innerPass, if_neg h]
        exact hc.1
      · intro y hy
        simp only [innerPass, if_neg h] at hy ⊢
        rcases List.mem_cons.mp hy with hEq | hy2
        · rw [hEq]
          exact le_trans (le_of_not_lt h) hc.1
        · exact hc.2 y hy2

/-- The inner pass permutes the incoming element and list. -/
theorem innerPass_perm (l : List OneilStock) (cur : OneilStock) :
    ((innerPass cur l).1 :: (innerPass cur l).2).Perm (cur :: l) := by
  induction l generalizing cur with
  | nil => exact List.Perm.refl _
  | cons x xs ih =>
    by_cases h : cur.score < x.score
    · simp only [innerPass, if_pos h]
      have step : ((innerPass x xs).1 :: cur :: (innerPass x xs).2).Perm
          (cur :: (innerPass x xs).1 :: (innerPass x xs).2) := List.Perm.swap _ _ _
      exact step.trans ((ih x).cons cur)
    · simp only [innerPass, if_neg h]
      have step : ((innerPass cur xs).1 :: x :: (innerPass cur xs).2).Perm
          (x :: (innerPass cur xs).1 :: (innerPass cur xs).2) := List.Perm.swap _ _ _
      exact step.trans (((ih cur).cons x).trans (List.Perm.swap _ _ _))

/-- The exchange sort permutes its input. -/
theorem exchangeSort_perm (l : List OneilStock) : (exchangeSort l).Perm l := by
  suffices h : ∀ (n : Nat) (l : List OneilStock), l.length = n → (exchangeSort l).Perm l from
    h l.length l rfl
  intro n
  induction n using Nat.strong_induction_on with
  | _ n ih =>
    intro l hl
    cases l with
    | nil => rw [exchangeSort]
    | cons x xs =>
      rw [exchangeSort]
      have hlen := innerPass_length x xs
      have ihrec : (exchangeSort (innerPass x xs).2).Perm (innerPass x xs).2 := by
        refine ih (innerPass x xs).2.length ?_ _ rfl
        rw [hlen, ← hl]
        simp
      exact (ihrec.cons (innerPass x xs).1).trans (innerPass_perm xs x)

/-- The exchange sort output is sorted by descending score. -/
theorem exchangeSort_sorted (l : List OneilStock) :
    List.Sorted (fun a b => b.score ≤ a.score) (exchangeSort l) := by
  suffices h : ∀ (n : Nat) (l : List OneilStock), l.length = n →
      List.Sorted (fun a b => b.score ≤ a.score) (exchangeSort l) from h l.length l rfl
  intro n
  induction n using Nat.strong_induction_on with
  | _ n ih =>
    intro l hl
    cases l with
    | nil => rw [exchangeSort]; exact List.sorted_nil
    | cons x xs =>
      rw [exchangeSort]
      have hlen := innerPass_length x xs
      refine List.sorted_cons.mpr ⟨?_, ?_⟩
      · intro b hb
        have hb2 : b ∈ (innerPass x xs).2 :=
          (exchangeSort_perm (innerPass x xs).2).mem_iff.mp hb
        exact (innerPass_spec xs x).2 b hb2
      · refine ih (innerPass x xs).2.length ?_ _ rfl
        rw [hlen, ← hl]
        simp

/-! Helper lemmas about the switch of parseXBRLFromZip, one unfolding
equation per concrete case label. -/

/-- Switch case NetSales. -/
theorem applyBase_NetSales (st : PState) (v : Int) :
    applyBase st "NetSales" v =
      if st.data.netSales = 0 then
        ⟨{ st.data with netSales := v }, markFound st.found "NetSales"⟩
      else st := rfl

/-- Switch case OperatingRevenues, which also writes net sales. -/
theorem applyBase_OperatingRevenues (st : PState) (v : Int) :
    applyBase st "OperatingRevenues" v =
      if st.data.netSales = 0 then
        ⟨{ st.data with netSales := v }, markFound st.found "NetSales"⟩
      else st := rfl

/-- Switch case OperatingIncome. -/
theorem applyBase_OperatingIncome (st : PState) (v : Int) :
    applyBase st "OperatingIncome" v =
      if st.data.operatingIncome = 0 then
        ⟨{ st.data with operatingIncome := v }, markFound st.found "OperatingIncome"⟩
      else st := rfl

/-- Switch case OrdinaryIncome: backfills operating income without
recording it in the found map. -/
theorem applyBase_OrdinaryIncome (st : PState) (v : Int) :
    applyBase st "OrdinaryIncome" v =
      if st.data.operatingIncome = 0 then
        ⟨{ st.data with operatingIncome := v }, st.found⟩
      else st := rfl

/-- Switch case NetIncome. -/
theorem applyBase_NetIncome (st : PState) (v : Int) :
    applyBase st "NetIncome" v =
      if st.data.netIncome = 0 then
        ⟨{ st.data with netIncome := v }, markFound st.found "NetIncome"⟩
      else st := rfl

/-- Switch case TotalAssets. -/
theorem applyBase_TotalAssets (st : PState) (v : Int) :
    applyBase st "TotalAssets" v =
      if st.data.totalAssets = 0 then
        ⟨{ st.data with totalAssets := v }, markFound st.found "TotalAssets"⟩
      else st := rfl

/-- Switch case NetAssets. -/
theorem applyBase_NetAssets (st : PState) (v : Int) :
    applyBase st "NetAssets" v =
      if st.data.netAssets = 0 then
        ⟨{ st.data with netAssets := v }, markFound st.found "NetAssets"⟩
      else st := rfl

/-- Switch case CurrentAssets. -/
theorem applyBase_CurrentAssets (st : PState) (v : Int) :
    applyBase st "CurrentAssets" v =
      if st.data.currentAssets = 0 then
        ⟨{ st.data with currentAssets := v }, markFound st.found "CurrentAssets"⟩
      else st := rfl

/-- Switch case Liabilities. -/
theorem applyBase_Liabilities (st : PState) (v : Int) :
    applyBase st "Liabilities" v =
      if st.data.liabilities = 0 then
        ⟨{ st.data with liabilities := v }, markFound st.found "Liabilities"⟩
      else st := rfl

/-- Switch case CurrentLiabilities. -/
theorem applyBase_CurrentLiabilities (st : PState) (v : Int) :
    applyBase st "CurrentLiabilities" v =
      if st.data.currentLiabilities = 0 then
        ⟨{ st.data with currentLiabilities := v }, markFound st.found "CurrentLiabilities"⟩
      else st := rfl

/-- Switch case CashAndDeposits. -/
theorem applyBase_CashAndDeposits (st : PState) (v : Int) :
    applyBase st "CashAndDeposits" v =
      if st.data.cashAndDeposits = 0 then
        ⟨{ st.data with cashAndDeposits := v }, markFound st.found "CashAndDeposits"⟩
      else st := rfl

/-- Switch case SharesIssued. -/
theorem applyBase_SharesIssued (st : PState) (v : Int) :
    applyBase st "SharesIssued" v =
      if st.data.sharesIssued = 0 then
        ⟨{ st.data with sharesIssued := v }, markFound st.found "SharesIssued"⟩
      else st := rfl

/-- The switch never changes a field that is already nonzero. -/
theorem applyBase_preserve (f : XField) (st : PState) (b : String) (v : Int)
    (hb : b ∈ allBases) (h : getF f st.data ≠ 0) :
    getF f (applyBase st b v).data = getF f st.data := by
  fin_cases hb <;>
    (first
      | rw [applyBase_NetSales]
      | rw [applyBase_OperatingRevenues]
      | rw [applyBase_OperatingIncome]
      | rw [applyBase_OrdinaryIncome]
      | rw [applyBase_NetIncome]
      | rw [applyBase_TotalAssets]
      | rw [applyBase_NetAssets]
      | rw [applyBase_CurrentAssets]
      | rw [applyBase_Liabilities]
      | rw [applyBase_CurrentLiabilities]
      | rw [applyBase_CashAndDeposits]
      | rw [applyBase_SharesIssued]) <;>
    split_ifs <;>
    (try rfl) <;>
    (cases f <;> simp_all [getF])

/-- A successful lookup key belongs to the key list of the table. -/
theorem lookup_mem_map_fst {l : List (String × TagPattern)} {n : String} {p : TagPattern}
    (h : l.lookup n = some p) : n ∈ l.map Prod.fst := by
  induction l with
  | nil => simp [List.lookup] at h
  | cons a t ih =>
    obtain ⟨k, v⟩ := a
    by_cases hb : (n == k) = true
    · simp only [List.map_cons, List.mem_cons]
      exact Or.inl (by simpa using hb)
    · simp only [List.lookup, hb] at h
      exact List.mem_cons_of_mem _ (ih h)

/-- The stripped base of every map key is one of the twelve case labels. -/
theorem zipBase_mem_allBases : ∀ n ∈ xbrlTagKeys, zipBase n ∈ allBases := by decide

/-- A pattern visit either leaves the state unchanged or runs the switch
on the stripped base of a table key with a positive parsed value and an
unset found flag. -/
theorem visitZip_cases (doc : List XTag) (st : PState) (n : String) :
    visitZip doc st n = st ∨
      (n ∈ xbrlTagKeys ∧ st.found (zipBase n) = false ∧
        ∃ v : Int, 0 < v ∧ visitZip doc st n = applyBase st (zipBase n) v) := by
  unfold visitZip
  rcases h1 : xbrlTagPatterns.lookup n with _ | pat
  · exact Or.inl (by simp only [h1])
  rcases h2 : findMatch pat doc with _ | cap
  · exact Or.inl (by simp only [h1, h2])
  by_cases h3 : 0 < goParseInt64 cap
  · by_cases h4 : st.found (zipBase n) = true
    · refine Or.inl ?_
      simp only [h1, h2]
      simp [h3, h4]
    · have h4f : st.found (zipBase n) = false := by simpa using h4
      refine Or.inr ⟨lookup_mem_map_fst h1, h4f, goParseInt64 cap, h3, ?_⟩
      simp only [h1, h2]
      simp [h3, h4f]
  · refine Or.inl ?_
    simp only [h1, h2]
    simp [h3]

/-- One pattern visit never changes a nonzero field. -/
theorem visitZip_preserve (doc : List XTag) (f : XField) (st : PState) (n : String)
    (h : getF f st.data ≠ 0) :
    getF f (visitZip doc st n).data = getF f st.data := by
  rcases visitZip_cases doc st n with h1 | ⟨hmem, -, v, -, h4⟩
  · rw [h1]
  · rw [h4]
    exact applyBase_preserve f st _ v (zipBase_mem_allBases n hmem) h

/-- The whole pattern loop never changes a nonzero field. -/
theorem foldl_visitZip_preserve (doc : List XTag) (f : XField) :
    ∀ (names : List String) (st : PState), getF f st.data ≠ 0 →
      getF f (names.foldl (visitZip doc) st).data = getF f st.data := by
  intro names
  induction names with
  | nil => intro st _; rfl
  | cons n rest ih =>
    intro st h
    have h1 := visitZip_preserve doc f st n h
    simp only [List.foldl_cons]
    rw [ih (visitZip doc st n) (by rw [h1]; exact h), h1]

/-- A switch case whose label cannot write a field leaves both the field
and its found flag unchanged. -/
theorem applyBase_nonTarget (f : XField) (st : PState) (b : String) (v : Int)
    (hb : b ∈ allBases) (hnb : b ∉ basesFor f) :
    getF f (applyBase st b v).data = getF f st.data ∧
    (applyBase st b v).found (primaryKey f) = st.found (primaryKey f) := by
  fin_cases hb <;>
    (first
      | rw [applyBase_NetSales]
      | rw [applyBase_OperatingRevenues]
      | rw [applyBase_OperatingIncome]
      | rw [applyBase_OrdinaryIncome]
      | rw [applyBase_NetIncome]
      | rw [applyBase_TotalAssets]
      | rw [applyBase_NetAssets]
      | rw [applyBase_CurrentAssets]
      | rw [applyBase_Liabilities]
      | rw [applyBase_CurrentLiabilities]
      | rw [applyBase_CashAndDeposits]
      | rw [applyBase_SharesIssued]) <;>
    split_ifs <;>
    constructor <;>
    (try rfl) <;>
    (cases f <;> simp_all [getF, primaryKey, basesFor, markFound])

/-- Visits whose stripped bases cannot write a field leave the field and
its found flag unchanged across the whole loop. -/
theorem foldl_visitZip_nonTarget (doc : List XTag) (f : XField) :
    ∀ (names : List String) (st : PState),
      (∀ n ∈ names, zipBase n ∉ basesFor f) →
      getF f (names.foldl (visitZip doc) st).data = getF f st.data ∧
      (names.foldl (visitZip doc) st).found (primaryKey f) = st.found (primaryKey f) := by
  intro names
  induction names with
  | nil => intro st _; exact ⟨rfl, rfl⟩
  | cons n rest ih =>
    intro st hna
    have hstep : getF f (visitZip doc st n).data = getF f st.data ∧
        (visitZip doc st n).found (primaryKey f) = st.found (primaryKey f) := by
      rcases visitZip_cases doc st n with h1 | ⟨hmem, -, v, -, h4⟩
      · rw [h1]; exact ⟨rfl, rfl⟩
      · rw [h4]
        exact applyBase_nonTarget f st _ v (zipBase_mem_allBases n hmem)
          (hna n (List.mem_cons_self n rest))
    have hrest := ih (visitZip doc st n) (fun m hm => hna m (List.mem_cons_of_mem n hm))
    simp only [List.foldl_cons]
    exact ⟨by rw [hrest.1, hstep.1], by rw [hrest.2, hstep.2]⟩

/-- The primary map key of a field looks up its pattern. -/
theorem lookup_primaryKey (f : XField) :
    xbrlTagPatterns.lookup (primaryKey f) = some (primaryPat f) := by
  cases f <;> rfl

/-- Primary keys carry no fallback suffix, so stripping is the identity. -/
theorem zipBase_primaryKey (f : XField) : zipBase (primaryKey f) = primaryKey f := by
  cases f <;> rfl

/-- The switch writes an unresolved field when run on its primary label. -/
theorem applyBase_primary (f : XField) (st : PState) (v : Int)
    (hzero : getF f st.data = 0) :
    getF f (applyBase st (primaryKey f) v).data = v := by
  cases f <;> simp only [getF] at hzero <;> simp only [primaryKey] <;>
    (first
      | rw [applyBase_NetSales]
      | rw [applyBase_OperatingIncome]
      | rw [applyBase_NetIncome]
      | rw [applyBase_TotalAssets]
      | rw [applyBase_NetAssets]
      | rw [applyBase_CurrentAssets]
      | rw [applyBase_Liabilities]
      | rw [applyBase_CurrentLiabilities]
      | rw [applyBase_CashAndDeposits]
      | rw [applyBase_SharesIssued]) <;>
    rw [if_pos hzero] <;> rfl

/-- Visiting the primary pattern of an unresolved, unflagged field with a
positive captured value stores exactly that value. -/
theorem visitZip_primary_write (doc : List XTag) (f : XField) (st : PState) (cap : String)
    (hm : findMatch (primaryPat f) doc = some cap)
    (hv : 0 < goParseInt64 cap)
    (hfnd : st.found (primaryKey f) = false)
    (hzero : getF f st.data = 0) :
    getF f (visitZip doc st (primaryKey f)).data = goParseInt64 cap := by
  unfold visitZip
  simp only [lookup_primaryKey f, hm, zipBase_primaryKey f, hfnd]
  rw [if_pos hv]
  simp only [Bool.false_eq_true, if_false]
  exact applyBase_primary f st _ hzero

/-- When no earlier-visited pattern can write a field, the primary
pattern resolves it to its captured value and later visits keep it. -/
theorem primary_resolves (doc : List XTag) (f : XField) (pre post : List String) (cap : String)
    (hpre : ∀ n ∈ pre, zipBase n ∉ basesFor f)
    (hm : findMatch (primaryPat f) doc = some cap)
    (hv : 0 < goParseInt64 cap) :
    getF f ((pre ++ primaryKey f :: post).foldl (visitZip doc) initState).data
      = goParseInt64 cap := by
  rw [List.foldl_append]
  have h1 := foldl_visitZip_nonTarget doc f pre initState hpre
  have hz : getF f (pre.foldl (visitZip doc) initState).data = 0 := by
    rw [h1.1]
    cases f <;> rfl
  have hf : (pre.foldl (visitZip doc) initState).found (primaryKey f) = false := by
    rw [h1.2]
    rfl
  simp only [List.foldl_cons]
  have hw := visitZip_primary_write doc f _ cap hm hv hf hz
  rw [foldl_visitZip_preserve doc f post _ (by rw [hw]; omega)]
  exact hw

end MyAnalysis

namespace MyAnalysis

/-! Claim theorems. -/

/-- C1 (amended): the OrdinaryIncome rescue never changes a nonzero
operating income, and the operating-income primary pattern stores its own
captured value whenever it is visited before any pattern that can write
operating income (including OrdinaryIncome).  The backfill happens at the
moment the OrdinaryIncome pattern is visited, not after all patterns are
tried, so under Go map iteration an OrdinaryIncome visited first preempts
a later operating-income match (see the counterexample). -/
theorem C1_ordinary_income_rescue :
    (∀ (doc : List XTag) (names : List String) (st : PState),
        st.data.operatingIncome ≠ 0 →
        (names.foldl (visitZip doc) st).data.operatingIncome = st.data.operatingIncome) ∧
    (∀ (doc : List XTag) (pre post : List String) (cap : String),
        (∀ n ∈ pre, zipBase n ∉ basesFor XField.operatingIncome) →
        findMatch patOperatingIncome doc = some cap →
        0 < goParseInt64 cap →
        ((pre ++ "OperatingIncome" :: post).foldl (visitZip doc) initState).data.operatingIncome
          = goParseInt64 cap) :=
  ⟨fun doc names st h => foldl_visitZip_preserve doc XField.operatingIncome names st h,
   fun doc pre post cap h1 h2 h3 =>
     primary_resolves doc XField.operatingIncome pre post cap h1 h2 h3⟩

/-- C1 witness: a resolved operating income of 5 survives an
OrdinaryIncome visit, and when OperatingIncome is visited first on a
document holding both tags the stored value is the 111 of the
operating-income tag. -/
theorem C1_witness :
    (["OrdinaryIncome"].foldl (visitZip c1doc) c1state).data.operatingIncome
       = c1state.data.operatingIncome ∧
    ((["OperatingIncome", "OrdinaryIncome"] : List String).foldl
        (visitZip c1doc) initState).data.operatingIncome = goParseInt64 "111" := by
  constructor
  · exact C1_ordinary_income_rescue.1 c1doc ["OrdinaryIncome"] c1state (by decide)
  · exact C1_ordinary_income_rescue.2 c1doc [] ["OrdinaryIncome"] "111"
      (by decide) (by decide) (by decide)

/-- C1 counterexample: on a document holding a positive operating-income
summary tag (111) and a positive ordinary-income tag (222), the run that
visits OrdinaryIncome first extracts operating income 222, not the
operating-income tag value 111 required by the claim; the order is a
permutation of the map keys, i.e. a possible Go iteration. -/
theorem C1_counterexample :
    (parseXBRLFromZip [⟨"a.xbrl", c1doc⟩] c1order).1.operatingIncome = 222 ∧
    findMatch patOperatingIncome c1doc = some "111" ∧
    findMatch patOrdinaryIncome c1doc = some "222" ∧
    c1order.Perm xbrlTagKeys := by
  refine ⟨by decide, by decide, by decide, ?_⟩
  exact (List.perm_cons_erase (by decide : "OrdinaryIncome" ∈ xbrlTagKeys)).symm

/-- C2: extraction fails exactly when net sales, total assets and net
assets are all zero after the full pass (operating income and net income
do not enter the gate), and in every case the returned record is the
accumulated one. -/
theorem C2_insufficiency_gate (files : List ZipFile) (order : List String) :
    ((parseXBRLFromZip files order).2 ≠ none ↔
      ((parseXBRLFromZip files order).1.netSales = 0 ∧
       (parseXBRLFromZip files order).1.totalAssets = 0 ∧
       (parseXBRLFromZip files order).1.netAssets = 0)) ∧
    (parseXBRLFromZip files order).1 = (zipExtract files order).data := by
  constructor
  · unfold parseXBRLFromZip
    dsimp only
    split_ifs with h <;> simp [h]
  · unfold parseXBRLFromZip
    dsimp only
    split_ifs <;> rfl

/-- C3 (amended): once a field is nonzero no later-visited pattern
changes it, and the primary pattern of a field stores exactly its
captured value whenever it is visited before any other pattern able to
write that field (in particular whenever no such pattern matches at all).
As stated the claim fails, because an earlier-visited fallback with a
different value wins (see the counterexample). -/
theorem C3_first_resolution :
    (∀ (doc : List XTag) (f : XField) (names : List String) (st : PState),
        getF f st.data ≠ 0 →
        getF f (names.foldl (visitZip doc) st).data = getF f st.data) ∧
    (∀ (doc : List XTag) (f : XField) (pre post : List String) (cap : String),
        (∀ n ∈ pre, zipBase n ∉ basesFor f) →
        findMatch (primaryPat f) doc = some cap →
        0 < goParseInt64 cap →
        getF f ((pre ++ primaryKey f :: post).foldl (visitZip doc) initState).data
          = goParseInt64 cap) :=
  ⟨fun doc f names st h => foldl_visitZip_preserve doc f names st h,
   fun doc f pre post cap h1 h2 h3 => primary_resolves doc f pre post cap h1 h2 h3⟩

/-- C3 witness: a resolved net sales of 7 survives a NetSalesFallback2
visit, and the net-sales primary visited first stores its capture 100. -/
theorem C3_witness :
    getF XField.netSales
        ((["NetSalesFallback2"].foldl (visitZip c3doc) c3state)).data
      = getF XField.netSales c3state.data ∧
    getF XField.netSales
        ((["NetSales"] : List String).foldl (visitZip c3doc) initState).data
      = goParseInt64 "100" := by
  constructor
  · exact C3_first_resolution.1 c3doc XField.netSales ["NetSalesFallback2"] c3state (by decide)
  · exact C3_first_resolution.2 c3doc XField.netSales [] [] "100"
      (by decide) (by decide) (by decide)

/-- C3 counterexample: the net-sales primary pattern matches c3doc with
capture 100, yet the run that visits the NetSalesFallback2 pattern first
extracts 200 (the jppfs statement value), refuting the claim that the
primary match value is always stored; the order is a permutation of the
map keys. -/
theorem C3_counterexample :
    (parseXBRLFromZip [⟨"a.xbrl", c3doc⟩] c3order).1.netSales = 200 ∧
    findMatch patNetSales c3doc = some "100" ∧
    c3order.Perm xbrlTagKeys := by
  refine ⟨by decide, by decide, ?_⟩
  exact (List.perm_cons_erase (by decide : "NetSalesFallback2" ∈ xbrlTagKeys)).symm

/-- C4 (amended): the extractor filters archive entries solely by the
.xbrl filename suffix, so audit-report files ending in .xbrl are
processed rather than skipped (see the counterexample); matches are
accumulated across all kept files with first-field-resolution-wins
applying globally, i.e. a field that is nonzero is never changed by a
later file. -/
theorem C4_suffix_filter_and_accumulate :
    (∀ (files : List ZipFile) (order : List String),
        parseXBRLFromZip files order =
          parseXBRLFromZip (files.filter (fun fl => goHasSuffix fl.name ".xbrl")) order) ∧
    (∀ (files : List ZipFile) (order : List String) (f : XField) (st : PState),
        getF f st.data ≠ 0 →
        getF f (files.foldl (fun st2 fl =>
            if goHasSuffix fl.name ".xbrl" then order.foldl (visitZip fl.doc) st2 else st2)
          st).data = getF f st.data) := by
  have hfold : ∀ (order : List String) (files : List ZipFile) (st : PState),
      files.foldl (fun st2 fl =>
          if goHasSuffix fl.name ".xbrl" then order.foldl (visitZip fl.doc) st2 else st2) st =
        (files.filter (fun fl => goHasSuffix fl.name ".xbrl")).foldl (fun st2 fl =>
          if goHasSuffix fl.name ".xbrl" then order.foldl (visitZip fl.doc) st2 else st2) st := by
    intro order files
    induction files with
    | nil => intro st; rfl
    | cons fl rest ih =>
      intro st
      by_cases hf : goHasSuffix fl.name ".xbrl"
      · simp only [List.foldl_cons, List.filter_cons, hf, if_pos]
        exact ih _
      · have hf2 : goHasSuffix fl.name ".xbrl" = false := by simpa using hf
        simp only [List.foldl_cons, List.filter_cons, hf2, if_false, Bool.false_eq_true]
        exact ih st
  constructor
  · intro files order
    unfold parseXBRLFromZip zipExtract
    rw [hfold order files initState]
  · intro files order f
    induction files with
    | nil => intro st _; rfl
    | cons fl rest ih =>
      intro st h
      simp only [List.foldl_cons]
      by_cases hf : goHasSuffix fl.name ".xbrl"
      · rw [if_pos hf]
        have hstep := foldl_visitZip_preserve fl.doc f order st h
        rw [ih _ (by rw [hstep]; exact h), hstep]
      · rw [if_neg hf]
        exact ih st h

/-- C4 witness: the filter identity at the audit-file archive, and a net
sales of 44 resolved before the file loop surviving it. -/
theorem C4_witness :
    parseXBRLFromZip c4files xbrlTagKeys =
      parseXBRLFromZip (c4files.filter (fun fl => goHasSuffix fl.name ".xbrl")) xbrlTagKeys ∧
    getF XField.netSales
        (c4files.foldl (fun st2 fl =>
            if goHasSuffix fl.name ".xbrl" then xbrlTagKeys.foldl (visitZip fl.doc) st2 else st2)
          c4state).data = getF XField.netSales c4state.data := by
  constructor
  · exact C4_suffix_filter_and_accumulate.1 c4files xbrlTagKeys
  · exact C4_suffix_filter_and_accumulate.2 c4files xbrlTagKeys XField.netSales c4state
      (by decide)

/-- C4 counterexample: an archive whose only entry is an audit-report
file (its name holds the jpaud marker) still yields net sales 100 and a
successful extraction, while the empty archive fails, so the audit file
was processed, refuting the claimed skip-by-filename-convention. -/
theorem C4_counterexample :
    (parseXBRLFromZip c4files xbrlTagKeys).1.netSales = 100 ∧
    (parseXBRLFromZip c4files xbrlTagKeys).2 = none ∧
    goContains (c4files.headD ⟨"", []⟩).name "jpaud" = true ∧
    (parseXBRLFromZip [] xbrlTagKeys).2 ≠ none := by decide

/-- C5 (amended): a non-empty security code of length at least four is
truncated to its leading four characters, but a non-empty code shorter
than four characters makes the slice doc.SecCode[:4] panic (modelled as
the inner none), so the claimed no-panic handling does not hold. -/
theorem C5_truncation (s : String) :
    (4 ≤ s.data.length → runCollectorShortCode s = some (some (String.mk (s.data.take 4)))) ∧
    (s ≠ "" → s.data.length < 4 → runCollectorShortCode s = some none) := by
  constructor
  · intro h
    have hne : s ≠ "" := by
      intro he
      subst he
      simp at h
    unfold runCollectorShortCode goSliceTo
    rw [if_neg hne, if_pos h]
  · intro hne hlt
    unfold runCollectorShortCode goSliceTo
    rw [if_neg hne, if_neg (by omega)]

/-- C5 witness: the five-character code 72030 truncates to 7203, and the
two-character code 72 reaches the panicking slice. -/
theorem C5_witness :
    runCollectorShortCode "72030" = some (some "7203") ∧
    runCollectorShortCode "72" = some none := by
  constructor
  · have h := (C5_truncation "72030").1 (by decide)
    rw [h]
    decide
  · exact (C5_truncation "72").2 (by decide) (by decide)

/-- C5 counterexample: the non-empty code 72 is not skipped and its
four-character slice panics (inner none), refuting the claim that short
codes are rejected or passed through without panic. -/
theorem C5_counterexample :
    runCollectorShortCode "72" = some none ∧ ("72" : String) ≠ "" := by decide

/-- C6 (amended): a capture parsing to a non-positive value (in
particular the digit string 0) never changes the state, but a digit
capture exceeding the signed 64-bit range parses - with the error
discarded - to the saturation value MaxInt64, which is positive and does
populate the field (see the counterexample). -/
theorem C6_zero_and_overflow :
    (∀ (doc : List XTag) (st : PState) (n : String) (p : TagPattern) (cap : String),
        xbrlTagPatterns.lookup n = some p → findMatch p doc = some cap →
        goParseInt64 cap ≤ 0 → visitZip doc st n = st) ∧
    (∀ cap : String, cap.data.isEmpty = false → cap.data.all Char.isDigit = true →
        int64Max < (digitsToNat cap.data : Int) → goParseInt64 cap = int64Max) := by
  constructor
  · intro doc st n p cap hl hm hv
    unfold visitZip
    simp only [hl, hm]
    rw [if_neg (by omega)]
  · intro cap h1 h2 h3
    unfold goParseInt64
    simp only [h1, h2, Bool.not_false, Bool.and_self]
    rw [if_pos trivial]
    rw [if_neg (by omega)]

/-- C6 witness: a zero-valued net-sales tag leaves the state untouched,
and the 20-digit capture 9223372036854775808 parses to the saturation
value. -/
theorem C6_witness :
    visitZip c6zeroDoc initState "NetSales" = initState ∧
    goParseInt64 "9223372036854775808" = int64Max := by
  constructor
  · exact C6_zero_and_overflow.1 c6zeroDoc initState "NetSales" patNetSales "0"
      (by decide) (by decide) (by decide)
  · exact C6_zero_and_overflow.2 "9223372036854775808" (by decide) (by decide) (by decide)

/-- C6 counterexample: the capture 9223372036854775808 does not fit a
64-bit integer, yet extraction populates net sales with 2 to the 63 minus
1, refuting the claim that unparseable captures never populate fields. -/
theorem C6_counterexample :
    (parseXBRLFromZip [⟨"a.xbrl", c6doc⟩] xbrlTagKeys).1.netSales = 9223372036854775807 ∧
    findMatch patNetSales c6doc = some "9223372036854775808" ∧
    int64Max < (digitsToNat "9223372036854775808".data : Int) := by decide

/-- C7 (amended): with the subscription key absent the document-list
fetch reads the mock file and the archive download returns the fixed
mock record, but the Stooq price-history fetch performs its network
request unconditionally for every key value - it has no mock branch. -/
theorem C7_mock_fallbacks :
    runCollectorListSource "" = FetchSource.mockFile ∧
    downloadAndParseXBRLSource "" = FetchSource.mockData ∧
    (∀ k : String, fetchPricesFromStooqSource k = FetchSource.network) :=
  ⟨rfl, rfl, fun _ => rfl⟩

/-- C7 counterexample: with the key absent the price-history fetch still
takes the network path, which is neither of the two mock fallbacks,
refuting the claim that every network-fetching mode falls back to mock
data. -/
theorem C7_counterexample :
    fetchPricesFromStooqSource "" = FetchSource.network ∧
    FetchSource.network ≠ FetchSource.mockData ∧
    FetchSource.network ≠ FetchSource.mockFile := by decide

/-- C8: with shares issued 1000, last price 50 and net income 10000 the
stocks endpoint computes market capitalization 50000 and EPS 10, and the
price-book ratio is absent whenever net assets is zero or market
capitalization is zero.  The rational arithmetic used here is exact for
these inputs, so it coincides with the float64 arithmetic of the
handler. -/
theorem C8_ratios :
    ((computeStockWithPrice c8row).marketCap = 50000 ∧
     (computeStockWithPrice c8row).eps = some 10 ∧
     (computeStockWithPrice c8row).pbr = none) ∧
    (∀ r : StockRow, r.netAssets = 0 → (computeStockWithPrice r).pbr = none) ∧
    (∀ r : StockRow, (computeStockWithPrice r).marketCap = 0 →
      (computeStockWithPrice r).pbr = none) := by
  refine ⟨by norm_num [computeStockWithPrice, c8row], ?_, ?_⟩
  · intro r h
    unfold computeStockWithPrice
    dsimp only
    rw [if_neg]
    intro hc
    rw [h] at hc
    exact lt_irrefl 0 hc.2
  · intro r h
    unfold computeStockWithPrice at h ⊢
    dsimp only at h ⊢
    rw [if_neg]
    intro hc
    rw [h] at hc
    exact lt_irrefl 0 hc.1

/-- C8 witness: the zero-net-assets row and the no-price row both yield
an absent price-book ratio. -/
theorem C8_witness :
    (computeStockWithPrice c8row).pbr = none ∧
    (computeStockWithPrice c8rowNoPrice).pbr = none := by
  constructor
  · exact C8_ratios.2.1 c8row (by decide)
  · refine C8_ratios.2.2 c8rowNoPrice ?_
    norm_num [computeStockWithPrice, c8rowNoPrice]

/-- C9 (amended): the ranking endpoint output is sorted in descending
score order and is a permutation of the per-row records, but the
exchange sort is not stable: swapping a strictly greater later element
into position i drops the displaced element at that later position,
which can reverse the relative order of equal-score entries (see the
counterexample). -/
theorem C9_descending (rows : List StockRow) :
    List.Sorted (fun a b => b.score ≤ a.score) (oneilRanking rows) ∧
    (oneilRanking rows).Perm (rows.map mkOneilStock) :=
  ⟨exchangeSort_sorted _, exchangeSort_perm _⟩

/-- C9 counterexample: rows 7001 and 7002 have equal score 50 and enter
in code-ascending order, 7003 scores 70; the endpoint returns
[7003, 7002, 7001], reversing the relative order of the equal-score pair
and refuting stability. -/
theorem C9_counterexample :
    (oneilRanking c9rows).map OneilStock.code = ["7003", "7002", "7001"] ∧
    (mkOneilStock c9rowA).score = (mkOneilStock c9rowB).score ∧
    c9rows.map StockRow.code = ["7001", "7002", "7003"] ∧
    (mkOneilStock c9rowA).score < (mkOneilStock c9rowC).score := by
  refine ⟨?_, ?_, by decide, ?_⟩
  · norm_num [oneilRanking, c9rows, mkOneilStock, c9rowA, c9rowB, c9rowC,
      exchangeSort, innerPass]
  · norm_num [mkOneilStock, c9rowA, c9rowB]
  · norm_num [mkOneilStock, c9rowA, c9rowC]

end MyAnalysis

namespace MyAnalysis

/-! Helper lemmas for the parseLocalFile versus parseXBRLFromZip
equivalence. -/

/-- Reading a field just written. -/
theorem getF_setF_same (f : XField) (v : Int) (d : FinancialData) :
    getF f (setF f v d) = v := by
  cases f <;> rfl

/-- Reading a field other than the written one. -/
theorem getF_setF_ne (f g : XField) (v : Int) (d : FinancialData) (h : f ≠ g) :
    getF f (setF g v d) = getF f d := by
  cases f <;> cases g <;> first | rfl | exact absurd rfl h

/-- Distinct fields have distinct primary keys. -/
theorem primaryKey_inj : ∀ f g : XField, primaryKey f = primaryKey g → f = g := by
  intro f g
  cases f <;> cases g <;> simp [primaryKey]

/-- The primary keys of the four divergent fields are the four labels. -/
theorem primaryKey_four_mem : ∀ f ∈ fourFields, primaryKey f ∈ fourStrings := by decide

/-- Both suffix-stripping chains agree on every key except
NetIncomeFallback3. -/
theorem localBase_eq_zipBase :
    ∀ n ∈ xbrlTagKeys, n ≠ "NetIncomeFallback3" → localBase n = zipBase n := by decide

/-- A key whose base is one of the four labels is that label itself. -/
theorem zipBase_four_self :
    ∀ n ∈ xbrlTagKeys, zipBase n ∈ fourStrings → n = zipBase n := by decide

/-- Case labels outside the four never mark a four label. -/
theorem markLabel_not_four :
    ∀ b ∈ allBases, b ∉ fourStrings → ∀ s ∈ fourStrings, markLabel b ≠ some s := by decide

/-- Case labels outside the four never write a four field. -/
theorem fieldOfBase_not_four :
    ∀ b ∈ allBases, b ∉ fourStrings → ∀ f ∈ fourFields, fieldOfBase b ≠ some f := by decide

/-- Outside the four divergent labels the two switches coincide. -/
theorem applyLocal_eq_applyBase (b : String) (hb : b ∈ allBases) (hnf : b ∉ fourStrings)
    (st : PState) (v : Int) : applyLocal st b v = applyBase st b v := by
  fin_cases hb <;> first | rfl | (exfalso; simp [fourStrings] at hnf)

/-- The unstripped NetIncomeFallback3 base falls through the local
switch. -/
theorem applyLocal_F3 (st : PState) (v : Int) :
    applyLocal st "NetIncomeFallback3" v = st := rfl

/-- Lookup misses for strings outside the key list. -/
theorem lookup_none_of_not_mem {n : String} (h : n ∉ xbrlTagKeys) :
    xbrlTagPatterns.lookup n = none := by
  rcases hl : xbrlTagPatterns.lookup n with _ | p
  · rfl
  · exact absurd (lookup_mem_map_fst hl) h

/-- A failed lookup makes the local visit a no-op. -/
theorem visitLocal_id_of_lookup_none (doc : List XTag) (st : PState) {n : String}
    (h : xbrlTagPatterns.lookup n = none) : visitLocal doc st n = st := by
  unfold visitLocal
  simp only [h]

/-- A failed lookup makes the zip visit a no-op. -/
theorem visitZip_id_of_lookup_none (doc : List XTag) (st : PState) {n : String}
    (h : xbrlTagPatterns.lookup n = none) : visitZip doc st n = st := by
  unfold visitZip
  simp only [h]

/-- A failed match makes the local visit a no-op. -/
theorem visitLocal_id_of_nomatch (doc : List XTag) (st : PState) {n : String} {p : TagPattern}
    (h1 : xbrlTagPatterns.lookup n = some p) (h2 : findMatch p doc = none) :
    visitLocal doc st n = st := by
  unfold visitLocal
  simp only [h1, h2]

/-- A failed match makes the zip visit a no-op. -/
theorem visitZip_id_of_nomatch (doc : List XTag) (st : PState) {n : String} {p : TagPattern}
    (h1 : xbrlTagPatterns.lookup n = some p) (h2 : findMatch p doc = none) :
    visitZip doc st n = st := by
  unfold visitZip
  simp only [h1, h2]

/-- Local switch case CurrentAssets: unconditional write, no mark. -/
theorem applyLocal_CurrentAssets (st : PState) (v : Int) :
    applyLocal st "CurrentAssets" v = ⟨{ st.data with currentAssets := v }, st.found⟩ := rfl

/-- Local switch case Liabilities: unconditional write, no mark. -/
theorem applyLocal_Liabilities (st : PState) (v : Int) :
    applyLocal st "Liabilities" v = ⟨{ st.data with liabilities := v }, st.found⟩ := rfl

/-- Local switch case CurrentLiabilities: unconditional write, no mark. -/
theorem applyLocal_CurrentLiabilities (st : PState) (v : Int) :
    applyLocal st "CurrentLiabilities" v =
      ⟨{ st.data with currentLiabilities := v }, st.found⟩ := rfl

/-- Local switch case CashAndDeposits: unconditional write, no mark. -/
theorem applyLocal_CashAndDeposits (st : PState) (v : Int) :
    applyLocal st "CashAndDeposits" v = ⟨{ st.data with cashAndDeposits := v }, st.found⟩ := rfl

/-- Two runs of the zip switch on records that agree either both skip or
both write the same field and mark the same label. -/
theorem applyBase_pair (b : String) (hb : b ∈ allBases) (sl sz : PState) (v : Int)
    (hd : sl.data = sz.data) :
    (applyBase sl b v = sl ∧ applyBase sz b v = sz) ∨
    (∃ g : XField, fieldOfBase b = some g ∧
      applyBase sl b v = ⟨setF g v sl.data, markOpt sl.found (markLabel b)⟩ ∧
      applyBase sz b v = ⟨setF g v sz.data, markOpt sz.found (markLabel b)⟩) := by
  fin_cases hb <;>
    (first
      | rw [applyBase_NetSales, applyBase_NetSales]
      | rw [applyBase_OperatingRevenues, applyBase_OperatingRevenues]
      | rw [applyBase_OperatingIncome, applyBase_OperatingIncome]
      | rw [applyBase_OrdinaryIncome, applyBase_OrdinaryIncome]
      | rw [applyBase_NetIncome, applyBase_NetIncome]
      | rw [applyBase_TotalAssets, applyBase_TotalAssets]
      | rw [applyBase_NetAssets, applyBase_NetAssets]
      | rw [applyBase_CurrentAssets, applyBase_CurrentAssets]
      | rw [applyBase_Liabilities, applyBase_Liabilities]
      | rw [applyBase_CurrentLiabilities, applyBase_CurrentLiabilities]
      | rw [applyBase_CashAndDeposits, applyBase_CashAndDeposits]
      | rw [applyBase_SharesIssued, applyBase_SharesIssued]) <;>
    rw [hd] <;>
    split_ifs with hz <;>
    first
      | exact Or.inl ⟨rfl, rfl⟩
      | exact Or.inr ⟨_, rfl, rfl, rfl⟩

/-- Coupled behaviour of one visit on a key outside the four divergent
labels and distinct from NetIncomeFallback3: both passes skip, or both
run the identical switch on the common base with the same value. -/
theorem visit_pair_common (doc : List XTag) (sl sz : PState) (n : String)
    (hn : n ∈ xbrlTagKeys) (hF3 : n ≠ "NetIncomeFallback3")
    (hfour : zipBase n ∉ fourStrings)
    (hg : sl.found (zipBase n) = sz.found (zipBase n)) :
    (visitLocal doc sl n = sl ∧ visitZip doc sz n = sz) ∨
    (∃ v : Int, 0 < v ∧ visitLocal doc sl n = applyBase sl (zipBase n) v ∧
      visitZip doc sz n = applyBase sz (zipBase n) v) := by
  have hLb : localBase n = zipBase n := localBase_eq_zipBase n hn hF3
  unfold visitLocal visitZip
  rcases h1 : xbrlTagPatterns.lookup n with _ | pat
  · exact Or.inl ⟨by simp only [h1], by simp only [h1]⟩
  rcases h2 : findMatch pat doc with _ | cap
  · exact Or.inl ⟨by simp only [h1, h2], by simp only [h1, h2]⟩
  by_cases h3 : 0 < goParseInt64 cap
  · by_cases h4 : sz.found (zipBase n) = true
    · have h4l : sl.found (localBase n) = true := by rw [hLb, hg]; exact h4
      refine Or.inl ⟨?_, ?_⟩ <;> simp only [h1, h2] <;> simp [h3, h4, h4l]
    · have h4f : sz.found (zipBase n) = false := by simpa using h4
      have h4lf : sl.found (localBase n) = false := by rw [hLb, hg]; exact h4f
      refine Or.inr ⟨goParseInt64 cap, h3, ?_, ?_⟩
      · simp only [h1, h2]
        simp only [h3, if_pos]
        rw [h4lf]
        simp only [Bool.false_eq_true, if_false]
        rw [hLb]
        exact applyLocal_eq_applyBase (zipBase n) (zipBase_mem_allBases n hn) hfour sl _
      · simp only [h1, h2]
        simp only [h3, if_pos]
        rw [h4f]
        simp only [Bool.false_eq_true, if_false]
  · exact Or.inl ⟨by simp only [h1, h2]; simp [h3], by simp only [h1, h2]; simp [h3]⟩

/-- Coupled behaviour of one visit on one of the four divergent labels
with both guards clear and the zip-side field still zero: both passes
skip, or the local pass writes without marking while the zip pass writes
and marks. -/
theorem visit_pair_four (doc : List XTag) (sl sz : PState) (n : String)
    (hn4 : n ∈ fourStrings)
    (hlf : sl.found n = false) (hzf : sz.found n = false)
    (hzero : ∀ f ∈ fourFields, primaryKey f = n → getF f sz.data = 0) :
    (visitLocal doc sl n = sl ∧ visitZip doc sz n = sz) ∨
    (∃ (f : XField) (v : Int), f ∈ fourFields ∧ primaryKey f = n ∧ 0 < v ∧
      visitLocal doc sl n = ⟨setF f v sl.data, sl.found⟩ ∧
      visitZip doc sz n = ⟨setF f v sz.data, markFound sz.found n⟩) := by
  fin_cases hn4
  · rcases h2 : findMatch patCurrentAssets doc with _ | cap
    · exact Or.inl ⟨visitLocal_id_of_nomatch doc sl rfl h2,
        visitZip_id_of_nomatch doc sz rfl h2⟩
    by_cases h3 : 0 < goParseInt64 cap
    · have hlf2 : sl.found (localBase "CurrentAssets") = false := hlf
      have hzf2 : sz.found (zipBase "CurrentAssets") = false := hzf
      refine Or.inr ⟨XField.currentAssets, goParseInt64 cap, by decide, by decide, h3, ?_, ?_⟩
      · unfold visitLocal
        simp only [show xbrlTagPatterns.lookup "CurrentAssets" = some patCurrentAssets from
          rfl, h2]
        simp only [h3, if_pos]
        rw [hlf2]
        simp only [Bool.false_eq_true, if_false]
        exact applyLocal_CurrentAssets sl _
      · unfold visitZip
        simp only [show xbrlTagPatterns.lookup "CurrentAssets" = some patCurrentAssets from
          rfl, h2]
        simp only [h3, if_pos]
        rw [hzf2]
        simp only [Bool.false_eq_true, if_false]
        rw [show zipBase "CurrentAssets" = "CurrentAssets" by decide, applyBase_CurrentAssets]
        rw [if_pos (show sz.data.currentAssets = 0 from
          hzero XField.currentAssets (by decide) rfl)]
        rfl
    · have h3n : ¬ 0 < goParseInt64 cap := h3
      refine Or.inl ⟨?_, ?_⟩
      · unfold visitLocal
        simp only [show xbrlTagPatterns.lookup "CurrentAssets" = some patCurrentAssets from
          rfl, h2]
        rw [if_neg h3n]
      · unfold visitZip
        simp only [show xbrlTagPatterns.lookup "CurrentAssets" = some patCurrentAssets from
          rfl, h2]
        rw [if_neg h3n]
  · rcases h2 : findMatch patLiabilities doc with _ | cap
    · exact Or.inl ⟨visitLocal_id_of_nomatch doc sl rfl h2,
        visitZip_id_of_nomatch doc sz rfl h2⟩
    by_cases h3 : 0 < goParseInt64 cap
    · have hlf2 : sl.found (localBase "Liabilities") = false := hlf
      have hzf2 : sz.found (zipBase "Liabilities") = false := hzf
      refine Or.inr ⟨XField.liabilities, goParseInt64 cap, by decide, by decide, h3, ?_, ?_⟩
      · unfold visitLocal
        simp only [show xbrlTagPatterns.lookup "Liabilities" = some patLiabilities from
          rfl, h2]
        simp only [h3, if_pos]
        rw [hlf2]
        simp only [Bool.false_eq_true, if_false]
        exact applyLocal_Liabilities sl _
      · unfold visitZip
        simp only [show xbrlTagPatterns.lookup "Liabilities" = some patLiabilities from
          rfl, h2]
        simp only [h3, if_pos]
        rw [hzf2]
        simp only [Bool.false_eq_true, if_false]
        rw [show zipBase "Liabilities" = "Liabilities" by decide, applyBase_Liabilities]
        rw [if_pos (show sz.data.liabilities = 0 from
          hzero XField.liabilities (by decide) rfl)]
        rfl
    · have h3n : ¬ 0 < goParseInt64 cap := h3
      refine Or.inl ⟨?_, ?_⟩
      · unfold visitLocal
        simp only [show xbrlTagPatterns.lookup "Liabilities" = some patLiabilities from
          rfl, h2]
        rw [if_neg h3n]
      · unfold visitZip
        simp only [show xbrlTagPatterns.lookup "Liabilities" = some patLiabilities from
          rfl, h2]
        rw [if_neg h3n]
  · rcases h2 : findMatch patCurrentLiabilities doc with _ | cap
    · exact Or.inl ⟨visitLocal_id_of_nomatch doc sl rfl h2,
        visitZip_id_of_nomatch doc sz rfl h2⟩
    by_cases h3 : 0 < goParseInt64 cap
    · have hlf2 : sl.found (localBase "CurrentLiabilities") = false := hlf
      have hzf2 : sz.found (zipBase "CurrentLiabilities") = false := hzf
      refine Or.inr ⟨XField.currentLiabilities, goParseInt64 cap, by decide, by decide,
        h3, ?_, ?_⟩
      · unfold visitLocal
        simp only [show xbrlTagPatterns.lookup "CurrentLiabilities" =
          some patCurrentLiabilities from rfl, h2]
        simp only [h3, if_pos]
        rw [hlf2]
        simp only [Bool.false_eq_true, if_false]
        exact applyLocal_CurrentLiabilities sl _
      · unfold visitZip
        simp only [show xbrlTagPatterns.lookup "CurrentLiabilities" =
          some patCurrentLiabilities from rfl, h2]
        simp only [h3, if_pos]
        rw [hzf2]
        simp only [Bool.false_eq_true, if_false]
        rw [show zipBase "CurrentLiabilities" = "CurrentLiabilities" by decide,
          applyBase_CurrentLiabilities]
        rw [if_pos (show sz.data.currentLiabilities = 0 from
          hzero XField.currentLiabilities (by decide) rfl)]
        rfl
    · have h3n : ¬ 0 < goParseInt64 cap := h3
      refine Or.inl ⟨?_, ?_⟩
      · unfold visitLocal
        simp only [show xbrlTagPatterns.lookup "CurrentLiabilities" =
          some patCurrentLiabilities from rfl, h2]
        rw [if_neg h3n]
      · unfold visitZip
        simp only [show xbrlTagPatterns.lookup "CurrentLiabilities" =
          some patCurrentLiabilities from rfl, h2]
        rw [if_neg h3n]
  · rcases h2 : findMatch patCashAndDeposits doc with _ | cap
    · exact Or.inl ⟨visitLocal_id_of_nomatch doc sl rfl h2,
        visitZip_id_of_nomatch doc sz rfl h2⟩
    by_cases h3 : 0 < goParseInt64 cap
    · have hlf2 : sl.found (localBase "CashAndDeposits") = false := hlf
      have hzf2 : sz.found (zipBase "CashAndDeposits") = false := hzf
      refine Or.inr ⟨XField.cashAndDeposits, goParseInt64 cap, by decide, by decide,
        h3, ?_, ?_⟩
      · unfold visitLocal
        simp only [show xbrlTagPatterns.lookup "CashAndDeposits" =
          some patCashAndDeposits from rfl, h2]
        simp only [h3, if_pos]
        rw [hlf2]
        simp only [Bool.false_eq_true, if_false]
        exact applyLocal_CashAndDeposits sl _
      · unfold visitZip
        simp only [show xbrlTagPatterns.lookup "CashAndDeposits" =
          some patCashAndDeposits from rfl, h2]
        simp only [h3, if_pos]
        rw [hzf2]
        simp only [Bool.false_eq_true, if_false]
        rw [show zipBase "CashAndDeposits" = "CashAndDeposits" by decide,
          applyBase_CashAndDeposits]
        rw [if_pos (show sz.data.cashAndDeposits = 0 from
          hzero XField.cashAndDeposits (by decide) rfl)]
        rfl
    · have h3n : ¬ 0 < goParseInt64 cap := h3
      refine Or.inl ⟨?_, ?_⟩
      · unfold visitLocal
        simp only [show xbrlTagPatterns.lookup "CashAndDeposits" =
          some patCashAndDeposits from rfl, h2]
        rw [if_neg h3n]
      · unfold visitZip
        simp only [show xbrlTagPatterns.lookup "CashAndDeposits" =
          some patCashAndDeposits from rfl, h2]
        rw [if_neg h3n]

/-- One coupled visit preserves the synchronisation invariant, assuming
the visited key is not revisited and the document has no
NetIncomeFallback3 match. -/
theorem sync_step (doc : List XTag) (hF3 : findMatch patNetIncomeFallback3 doc = none)
    (sl sz : PState) (n : String) (rest : List String)
    (hnotin : n ∉ rest) (hinv : SyncInv sl sz (n :: rest)) :
    SyncInv (visitLocal doc sl n) (visitZip doc sz n) rest := by
  obtain ⟨hd, hf, hl4, hz4, hzz⟩ := hinv
  have hz4w : ∀ b ∈ fourStrings, sz.found b = true → b ∉ rest := fun b hb ht hr =>
    hz4 b hb ht (List.mem_cons_of_mem n hr)
  by_cases hk : n ∈ xbrlTagKeys
  case neg =>
    have hnone := lookup_none_of_not_mem hk
    rw [visitLocal_id_of_lookup_none doc sl hnone, visitZip_id_of_lookup_none doc sz hnone]
    exact ⟨hd, hf, hl4, hz4w, hzz⟩
  by_cases hF3n : n = "NetIncomeFallback3"
  · subst hF3n
    rw [visitLocal_id_of_nomatch doc sl
          (show xbrlTagPatterns.lookup "NetIncomeFallback3" = some patNetIncomeFallback3 from
            rfl) hF3,
        visitZip_id_of_nomatch doc sz
          (show xbrlTagPatterns.lookup "NetIncomeFallback3" = some patNetIncomeFallback3 from
            rfl) hF3]
    exact ⟨hd, hf, hl4, hz4w, hzz⟩
  by_cases h4 : zipBase n ∈ fourStrings
  · have hself := zipBase_four_self n hk h4
    have hn4 : n ∈ fourStrings := by rw [hself]; exact h4
    have hzfn : sz.found n = false := by
      rcases Bool.eq_false_or_eq_true (sz.found n) with h | h
      · exact absurd (hz4 n hn4 h) (by simp)
      · exact h
    have hzero : ∀ f ∈ fourFields, primaryKey f = n → getF f sz.data = 0 := fun f hfm hpk =>
      hzz f hfm (by rw [hpk]; exact hzfn)
    rcases visit_pair_four doc sl sz n hn4 (hl4 n hn4) hzfn hzero with
      ⟨e1, e2⟩ | ⟨g, v, hgm, hpk, hv, e1, e2⟩
    · rw [e1, e2]
      exact ⟨hd, hf, hl4, hz4w, hzz⟩
    · rw [e1, e2]
      refine ⟨by rw [hd], ?_, hl4, ?_, ?_⟩
      · intro b hb
        have hbn : b ≠ n := fun he => hb (he ▸ hn4)
        simp only [markFound]
        rw [if_neg hbn]
        exact hf b hb
      · intro b hb ht
        by_cases hbn : b = n
        · subst hbn
          exact hnotin
        · refine hz4w b hb ?_
          simpa [markFound, hbn] using ht
      · intro g2 hg2 hfnd
        have hkey2 : primaryKey g2 ≠ n := by
          intro he
          simp [markFound, he] at hfnd
        have hold : sz.found (primaryKey g2) = false := by
          simpa [markFound, hkey2] using hfnd
        have hne : g2 ≠ g := fun he => hkey2 (by rw [he, hpk])
        rw [getF_setF_ne g2 g v sz.data hne]
        exact hzz g2 hg2 hold
  · have hguard : sl.found (zipBase n) = sz.found (zipBase n) := hf _ h4
    rcases visit_pair_common doc sl sz n hk hF3n h4 hguard with ⟨e1, e2⟩ | ⟨v, hv, e1, e2⟩
    · rw [e1, e2]
      exact ⟨hd, hf, hl4, hz4w, hzz⟩
    · rw [e1, e2]
      have hball := zipBase_mem_allBases n hk
      rcases applyBase_pair (zipBase n) hball sl sz v hd with ⟨e3, e4⟩ | ⟨g, hgf, e3, e4⟩
      · rw [e3, e4]
        exact ⟨hd, hf, hl4, hz4w, hzz⟩
      · rw [e3, e4]
        have hgnf : g ∉ fourFields := fun hgm =>
          fieldOfBase_not_four (zipBase n) hball h4 g hgm hgf
        have hlab : ∀ s ∈ fourStrings, markLabel (zipBase n) ≠ some s :=
          markLabel_not_four (zipBase n) hball h4
        refine ⟨by rw [hd], ?_, ?_, ?_, ?_⟩
        · intro b hb
          cases hml : markLabel (zipBase n) with
          | none => simp only [markOpt]; exact hf b hb
          | some L =>
            simp only [markOpt, markFound]
            by_cases hbL : b = L
            · rw [if_pos hbL, if_pos hbL]
            · rw [if_neg hbL, if_neg hbL]
              exact hf b hb
        · intro b hb
          cases hml : markLabel (zipBase n) with
          | none => simp only [markOpt]; exact hl4 b hb
          | some L =>
            have hbL : b ≠ L := fun he => hlab b hb (by rw [hml, he])
            simp only [markOpt, markFound]
            rw [if_neg hbL]
            exact hl4 b hb
        · intro b hb ht
          refine hz4w b hb ?_
          cases hml : markLabel (zipBase n) with
          | none =>
            rw [hml] at ht
            simpa [markOpt] using ht
          | some L =>
            have hbL : b ≠ L := fun he => hlab b hb (by rw [hml, he])
            rw [hml] at ht
            simp only [markOpt, markFound] at ht
            rwa [if_neg hbL] at ht
        · intro g2 hg2 hfnd
          have hpk4 := primaryKey_four_mem g2 hg2
          have hold : sz.found (primaryKey g2) = false := by
            cases hml : markLabel (zipBase n) with
            | none =>
              rw [hml] at hfnd
              simpa [markOpt] using hfnd
            | some L =>
              have hneq : primaryKey g2 ≠ L := fun he => hlab _ hpk4 (by rw [hml, he])
              rw [hml] at hfnd
              simp only [markOpt, markFound] at hfnd
              rwa [if_neg hneq] at hfnd
          have hne : g2 ≠ g := fun he => hgnf (he ▸ hg2)
          rw [getF_setF_ne g2 g v sz.data hne]
          exact hzz g2 hg2 hold

/-- The invariant holds between two fresh states. -/
theorem SyncInv_init (order : List String) : SyncInv initState initState order :=
  ⟨rfl, fun _ _ => rfl, fun _ _ => rfl,
   fun b _ ht => absurd ht (by simp [initState]),
   fun f _ _ => by cases f <;> rfl⟩

/-- Running both pattern loops over a duplicate-free order from
synchronised states yields equal records. -/
theorem sync_fold (doc : List XTag) (hF3 : findMatch patNetIncomeFallback3 doc = none) :
    ∀ (order : List String) (sl sz : PState), order.Nodup → SyncInv sl sz order →
      (order.foldl (visitLocal doc) sl).data = (order.foldl (visitZip doc) sz).data := by
  intro order
  induction order with
  | nil => intro sl sz _ hinv; exact hinv.1
  | cons n rest ih =>
    intro sl sz hnd hinv
    have hnd2 := List.nodup_cons.mp hnd
    simp only [List.foldl_cons]
    exact ih _ _ hnd2.2 (sync_step doc hF3 sl sz n rest hnd2.1 hinv)

/-- C10: the local parser never acts on the NetIncomeFallback3 key (its
suffix stripping handles only the Fallback and Fallback2 suffixes, so the
unstripped base falls through the switch and in particular never
populates net income), and for every document without a
NetIncomeFallback3 match, every duplicate-free visitation order (as
produced by Go map iteration shared by both runs) and every .xbrl file
name, parseLocalFile returns exactly the figures record accumulated by
parseXBRLFromZip on the single-file archive, the insufficiency gate of
the latter affecting only the accompanying error value. -/
theorem C10_local_refines_zip :
    (∀ (doc : List XTag) (st : PState), visitLocal doc st "NetIncomeFallback3" = st) ∧
    (∀ (doc : List XTag) (order : List String) (fname : String),
        order.Nodup → findMatch patNetIncomeFallback3 doc = none →
        goHasSuffix fname ".xbrl" = true →
        parseLocalFile doc order = (parseXBRLFromZip [⟨fname, doc⟩] order).1) := by
  constructor
  · intro doc st
    unfold visitLocal
    simp only [show xbrlTagPatterns.lookup "NetIncomeFallback3" =
      some patNetIncomeFallback3 from rfl]
    rcases h2 : findMatch patNetIncomeFallback3 doc with _ | cap
    · simp only [h2]
    · simp only [h2]
      split_ifs with h3 h4
      · rfl
      · exact applyLocal_F3 st _
      · rfl
  · intro doc order fname hnd hF3 hsuf
    have hsync := sync_fold doc hF3 order initState initState hnd (SyncInv_init order)
    unfold parseLocalFile parseXBRLFromZip zipExtract
    dsimp only
    simp only [List.foldl_cons, List.foldl_nil, hsuf, if_true]
    split_ifs with hg <;> exact hsync

/-- C10 witness: a document matched only by NetIncomeFallback3 leaves
the local visit inert, and on a concrete three-tag document the local
parse equals the zip parse under the source-order key list. -/
theorem C10_witness :
    visitLocal c10docF3 initState "NetIncomeFallback3" = initState ∧
    parseLocalFile c10doc xbrlTagKeys =
      (parseXBRLFromZip [⟨"a.xbrl", c10doc⟩] xbrlTagKeys).1 := by
  constructor
  · exact C10_local_refines_zip.1 c10docF3 initState
  · exact C10_local_refines_zip.2 c10doc xbrlTagKeys "a.xbrl"
      (by decide) (by decide) (by decide)

end MyAnalysis
